import Mathlib

/-!
# Pyrinas compiler — verification of the specification against the source

Shallow embedding of the pyrinas source-to-source compiler
(`src/c_compiler/{lexer,parser,semantic,codegen}.c`) in Lean 4, together
with theorems settling the frozen claims C1–C10 about the lexer's
indentation handling, the parser's comparison grammar, the semantic
analyzer's scope and type rules, and the C emitter.

C strings are modelled as Lean `String`/`List Char`; nullable `char*`
values as `Option String`; C `int` as `Int` (no claim depends on 32-bit
wraparound); dynamically grown arrays as Lean lists (the capacity
doubling of the C code has no observable effect).  Loops that walk an
input buffer are either structural recursions over the remaining
characters or fuel-indexed recursions whose fuel demonstrably dominates
the loop measure.
-/

namespace Pyrinas

/-! ## String utilities (semantic.c uses `strcmp`, `strstr`, `strrchr`, `strchr`)

`strstrIndex hay pat` is the index of the first occurrence of `pat` in
`hay`, mirroring C `strstr` (which returns a pointer to the first
occurrence, or NULL).  `strstr(a, b) != NULL` becomes `(strstrIndex a b).isSome`,
and the idiom `strstr(a, b) == a` (occurrence at the very beginning)
becomes `strstrIndex a b = some 0`. -/

def strstrIndex : List Char → List Char → Option Nat
  | [], pat => if pat = [] then some 0 else none
  | c :: t, pat =>
    if pat.isPrefixOf (c :: t) then some 0
    else (strstrIndex t pat).map (· + 1)

/-- `strstr(hay, pat) != NULL`: `pat` occurs somewhere in `hay`. -/
def strContains (hay pat : String) : Bool :=
  (strstrIndex hay.toList pat.toList).isSome

/-- `strstr(hay, pat) == hay`: `pat` occurs at the beginning of `hay`. -/
def strStartsWith (hay pat : String) : Bool :=
  strstrIndex hay.toList pat.toList = some 0

/-! ## `types_compatible` and the type-string helpers (semantic.c 333–396) -/

/-- semantic.c:333 `types_compatible(const char* type1, const char* type2)`.
`none` models a NULL `char*`. -/
def types_compatible (type1 type2 : Option String) : Bool :=
  match type1, type2 with
  | some t1, some t2 =>
    -- Exact match
    if t1 = t2 then true
    -- bool can be assigned from int
    else if t1 = "bool" ∧ t2 = "int" then true
    -- ptr[void] can be assigned to any pointer type
    -- (the C code tests `strstr(type1, "ptr[")`, i.e. occurrence anywhere)
    else if strContains t1 "ptr[" ∧ t2 = "ptr[void]" then true
    else false
  | _, _ => false

/-- semantic.c:348 `is_pointer_type` (`strstr(type, "ptr[") == type`). -/
def is_pointer_type (t : Option String) : Bool :=
  match t with
  | some s => strstrIndex s.toList "ptr[".toList = some 0
  | none => false

/-- semantic.c:352 `is_array_type` (`strstr(type, "array[") == type`). -/
def is_array_type (t : Option String) : Bool :=
  match t with
  | some s => strstrIndex s.toList "array[".toList = some 0
  | none => false

/-- semantic.c:356 `is_result_type` (`strstr(type, "Result[") == type`). -/
def is_result_type (t : Option String) : Bool :=
  match t with
  | some s => strstrIndex s.toList "Result[".toList = some 0
  | none => false

/-- The claim's (and spec §4.3's) reading of rule 3: `a` *begins with*
`"ptr["`.  Kept separate from `types_compatible` so the two can be
compared; the source uses a bare `strstr` containment test instead. -/
def claim_types_compatible (t1 t2 : String) : Bool :=
  t1 = t2 ∨ (t1 = "bool" ∧ t2 = "int") ∨ (strStartsWith t1 "ptr[" ∧ t2 = "ptr[void]")

end Pyrinas

namespace Pyrinas

/-- C4 counterexample: on `a = "array[ptr[int], 5]"`, `b = "ptr[void]"` the
source's `types_compatible` returns `true`, while the claim (in which rule 3
requires `a` to *begin* with `"ptr["`, and which adds "in particular it
returns false whenever `ptr[` occurs in `a` only at a non-initial
position") requires `false`.  So the claim, as stated, is false. -/
theorem c4_counterexample :
    types_compatible (some "array[ptr[int], 5]") (some "ptr[void]") = true ∧
    claim_types_compatible "array[ptr[int], 5]" "ptr[void]" = false := by
  constructor
  · decide
  · decide

/-- C4 (amended): for all non-null type strings `a`, `b`,
`types_compatible(a, b)` returns true iff `a = b`, or `a = "bool"` and
`b = "int"`, or `"ptr["` occurs **anywhere** in `a` (not necessarily at
the beginning) and `b = "ptr[void]"`. -/
theorem c4_types_compatible_iff (a b : String) :
    types_compatible (some a) (some b) = true ↔
      a = b ∨ (a = "bool" ∧ b = "int") ∨
        (strContains a "ptr[" = true ∧ b = "ptr[void]") := by
  simp only [types_compatible]
  split_ifs with h1 h2 h3 <;> simp_all

/-! ## Lexer (lexer.c)

Tokens and the token kinds of lexer.h.  `value` models the nullable
`char* value` field; `line`/`column` the source coordinates. -/

inductive TokKind where
  | num | str | ident
  | kwDef | kwClass | kwIf | kwElse | kwElif | kwWhile | kwFor
  | kwBreak | kwContinue | kwReturn | kwPass | kwMatch | kwCase
  | kwIn | kwAnd | kwOr | kwNot | kwTrue | kwFalse | kwNone
  | kwImport | kwFrom | kwAs
  | plus | minus | multiply | divide | modulo | floordiv
  | assign | eq | ne | lt | le | gt | ge | arrow
  | lparen | rparen | lbracket | rbracket | lbrace | rbrace
  | comma | colon | semicolon | dot
  | newline | indent | dedent | eof | error
  deriving DecidableEq, Repr

structure Token where
  kind : TokKind
  value : Option String
  line : Nat
  column : Nat
  deriving DecidableEq, Repr

/-- lexer.c:204 `keyword_token_type` — the keyword table walked with
`strcmp`, unrolled to the same sequence of comparisons. -/
def keyword_token_type (s : String) : TokKind :=
  if s = "def" then .kwDef
  else if s = "class" then .kwClass
  else if s = "if" then .kwIf
  else if s = "else" then .kwElse
  else if s = "elif" then .kwElif
  else if s = "while" then .kwWhile
  else if s = "for" then .kwFor
  else if s = "break" then .kwBreak
  else if s = "continue" then .kwContinue
  else if s = "return" then .kwReturn
  else if s = "pass" then .kwPass
  else if s = "match" then .kwMatch
  else if s = "case" then .kwCase
  else if s = "in" then .kwIn
  else if s = "and" then .kwAnd
  else if s = "or" then .kwOr
  else if s = "not" then .kwNot
  else if s = "True" then .kwTrue
  else if s = "False" then .kwFalse
  else if s = "None" then .kwNone
  else if s = "import" then .kwImport
  else if s = "from" then .kwFrom
  else if s = "as" then .kwAs
  else .ident

/-- lexer.c:195 `is_keyword`. -/
def is_keyword (s : String) : Bool :=
  keyword_token_type s ≠ .ident

/-- lexer.c:213 `is_identifier_start` (`isalpha(c) || c == '_'`). -/
def is_identifier_start (c : Char) : Bool :=
  c.isAlpha ∨ c = '_'

/-- lexer.c:217 `is_identifier_char` (`isalnum(c) || c == '_'`). -/
def is_identifier_char (c : Char) : Bool :=
  c.isAlphanum ∨ c = '_'

/-- The lexer state of lexer.h: source buffer, cursor, coordinates,
line-start flag, indent stack (head = top; the C array keeps the top at
`indent_stack[indent_count-1]` and the base `0` at index 0, which is the
last element of this list), and the tokens emitted so far (in order). -/
structure LexState where
  source : List Char
  position : Nat
  line : Nat
  column : Nat
  atLineStart : Bool
  indentStack : List Nat
  tokens : List Token
  deriving DecidableEq, Repr

/-- lexer.c:222 `lexer_current_char` (returns `'\x00'` past the end). -/
def currentChar (s : LexState) : Char :=
  s.source.getD s.position '\x00'

/-- lexer.c:229 `lexer_peek_char`. -/
def peekChar (s : LexState) : Char :=
  s.source.getD (s.position + 1) '\x00'

/-- lexer.c:236 `lexer_advance`: step one character, maintaining
line/column and the `at_line_start` flag. -/
def advance (s : LexState) : LexState :=
  if s.position < s.source.length then
    if s.source.getD s.position '\x00' = '\n' then
      { s with position := s.position + 1, line := s.line + 1, column := 1,
               atLineStart := true }
    else
      { s with position := s.position + 1, column := s.column + 1,
               atLineStart := false }
  else s

/-- `lexer_advance` iterated `n` times. -/
def advanceMany (s : LexState) : Nat → LexState
  | 0 => s
  | n + 1 => advanceMany (advance s) n

/-- Append one token to the output array (lexer.c `token_array_push`). -/
def pushToken (s : LexState) (t : Token) : LexState :=
  { s with tokens := s.tokens ++ [t] }

/-- The column-counting loop of lexer.c:269–275 (space = 1, tab = 8),
expressed over the remaining characters; returns the indentation level
and the number of characters consumed. -/
def indentColsLoop : List Char → Nat → Nat × Nat
  | c :: rest, acc =>
    if c = ' ' then
      ((indentColsLoop rest (acc + 1)).1, (indentColsLoop rest (acc + 1)).2 + 1)
    else if c = '\t' then
      ((indentColsLoop rest (acc + 8)).1, (indentColsLoop rest (acc + 8)).2 + 1)
    else (acc, 0)
  | [], acc => (acc, 0)

/-- The DEDENT-pop loop of lexer.c:299–303
(`while (indent_count > 1 && stack[top] > indent_level)`); returns the
remaining stack and the number of entries popped (= DEDENTs emitted). -/
def popDedents : List Nat → Nat → List Nat × Nat
  | a :: b :: rest, lvl =>
    if lvl < a then
      ((popDedents (b :: rest) lvl).1, (popDedents (b :: rest) lvl).2 + 1)
    else (a :: b :: rest, 0)
  | st, _ => (st, 0)

/-- lexer.c:278–310, the part of `lexer_handle_indentation` after the
leading whitespace has been consumed: `s1` is the state at the first
non-space character, `indentLevel` the column count of the line. -/
def handleIndentCore (s1 : LexState) (indentLevel : Nat) : LexState :=
  -- Skip empty lines and comments
  if currentChar s1 = '\n' ∨ currentChar s1 = '#' then
    { s1 with atLineStart := false }
  else
    let s2 := { s1 with atLineStart := false }
    let currentIndent := s2.indentStack.headD 0
    if currentIndent < indentLevel then
      -- Increase indentation
      pushToken { s2 with indentStack := indentLevel :: s2.indentStack }
        ⟨.indent, none, s2.line, s2.column⟩
    else if indentLevel < currentIndent then
      -- Decrease indentation - may need multiple DEDENTs
      let s3 := { s2 with
        indentStack := (popDedents s2.indentStack indentLevel).1,
        tokens := s2.tokens ++ List.replicate (popDedents s2.indentStack indentLevel).2
          ⟨.dedent, none, s2.line, s2.column⟩ }
      -- Check for indentation error
      if (popDedents s2.indentStack indentLevel).1.headD 0 ≠ indentLevel then
        pushToken s3 ⟨.error, some "IndentationError", s3.line, s3.column⟩
      else s3
    else s2

/-- lexer.c:265 `lexer_handle_indentation`. -/
def lexer_handle_indentation (s : LexState) : LexState :=
  if s.atLineStart = false then s
  else
    handleIndentCore
      (advanceMany s (indentColsLoop (s.source.drop s.position) 0).2)
      (indentColsLoop (s.source.drop s.position) 0).1

/-- The digit/dot loop of lexer.c:320–326 (`lexer_read_number`): consume
digits, and at most one dot (a second dot terminates). -/
def numberChars : List Char → Bool → List Char
  | c :: rest, hasDot =>
    if c.isDigit then c :: numberChars rest hasDot
    else if c = '.' ∧ hasDot = false then c :: numberChars rest true
    else []
  | [], _ => []

/-- lexer.c:313 `lexer_read_number`. -/
def lexer_read_number (s : LexState) : Token × LexState :=
  let cs := numberChars (s.source.drop s.position) false
  (⟨.num, some (String.mk cs), s.line, s.column⟩, advanceMany s cs.length)

/-- lexer.c:358 — decode one escape character (unknown escapes pass both
characters through). -/
def escapeDecode (e : Char) : List Char :=
  if e = 'n' then ['\n']
  else if e = 't' then ['\t']
  else if e = 'r' then ['\r']
  else if e = '\\' then ['\\']
  else if e = '"' then ['"']
  else if e = '\'' then ['\'']
  else ['\\', e]

/-- The body loop of lexer.c:349–374 (`lexer_read_string`): decoded value
characters and the number of source characters consumed (the closing
quote excluded).  A backslash escapes only when a character follows
(`lexer_peek_char != '\x00'`). -/
def stringValueChars : List Char → Char → List Char × Nat
  | c :: e :: rest, q =>
    if c = q then ([], 0)
    else if c = '\\' then
      (escapeDecode e ++ (stringValueChars rest q).1, (stringValueChars rest q).2 + 2)
    else
      (c :: (stringValueChars (e :: rest) q).1, (stringValueChars (e :: rest) q).2 + 1)
  | [c], q => if c = q then ([], 0) else ([c], 1)
  | [], _ => ([], 0)

/-- lexer.c:338 `lexer_read_string`. -/
def lexer_read_string (s : LexState) : Token × LexState :=
  let q := currentChar s
  let line := s.line
  let column := s.column
  let s1 := advance s      -- Skip opening quote
  let p := stringValueChars (s1.source.drop s1.position) q
  let s2 := advanceMany s1 p.2
  let s3 := if currentChar s2 = q then advance s2 else s2  -- Skip closing quote
  (⟨.str, some (String.mk p.1), line, column⟩, s3)

/-- The identifier loop of lexer.c:391–393. -/
def identChars : List Char → List Char
  | c :: rest => if is_identifier_char c then c :: identChars rest else []
  | [] => []

/-- lexer.c:386 `lexer_read_identifier`. -/
def lexer_read_identifier (s : LexState) : Token × LexState :=
  let cs := identChars (s.source.drop s.position)
  let v := String.mk cs
  let k : TokKind := if is_keyword v then keyword_token_type v else .ident
  (⟨k, some v, s.line, s.column⟩, advanceMany s cs.length)

/-- The whitespace loop of lexer.c:250 (`lexer_skip_whitespace`). -/
def skipWsCount : List Char → Nat
  | c :: rest => if c = ' ' ∨ c = '\t' then skipWsCount rest + 1 else 0
  | [] => 0

/-- lexer.c:250 `lexer_skip_whitespace` (only ever called with
`at_line_start` already false, so its redundant clearing of the flag has
no effect beyond what `lexer_advance` does). -/
def lexer_skip_whitespace (s : LexState) : LexState :=
  advanceMany s (skipWsCount (s.source.drop s.position))

/-- The comment loop of lexer.c:257 (`lexer_skip_comment`): characters up
to (not including) the next newline or end of input. -/
def commentCount : List Char → Nat
  | c :: rest => if c = '\n' then 0 else commentCount rest + 1
  | [] => 0

/-- lexer.c:257 `lexer_skip_comment`. -/
def lexer_skip_comment (s : LexState) : LexState :=
  if currentChar s = '#' then
    advanceMany s (commentCount (s.source.drop s.position))
  else s

/-- The operator/delimiter switch of lexer.c:463–580, split into the
selection of the token kind (with number of characters consumed, 1 or 2
by longest match on the peeked character) and the state update. -/
def operatorTokenKind (c pk : Char) : TokKind × Nat :=
  if c = '+' then (.plus, 1)
  else if c = '-' then
    if pk = '>' then (.arrow, 2) else (.minus, 1)
  else if c = '*' then (.multiply, 1)
  else if c = '/' then
    if pk = '/' then (.floordiv, 2) else (.divide, 1)
  else if c = '%' then (.modulo, 1)
  else if c = '=' then
    if pk = '=' then (.eq, 2) else (.assign, 1)
  else if c = '!' then
    if pk = '=' then (.ne, 2) else (.error, 1)
  else if c = '<' then
    if pk = '=' then (.le, 2) else (.lt, 1)
  else if c = '>' then
    if pk = '=' then (.ge, 2) else (.gt, 1)
  else if c = '(' then (.lparen, 1)
  else if c = ')' then (.rparen, 1)
  else if c = '[' then (.lbracket, 1)
  else if c = ']' then (.rbracket, 1)
  else if c = '{' then (.lbrace, 1)
  else if c = '}' then (.rbrace, 1)
  else if c = ',' then (.comma, 1)
  else if c = ':' then (.colon, 1)
  else if c = ';' then (.semicolon, 1)
  else if c = '.' then (.dot, 1)
  else (.error, 1)

/-- lexer.c:463–580: build the operator token (ERROR tokens carry
"Unexpected character") and advance past its one or two characters. -/
def lexer_read_operator (s : LexState) : Token × LexState :=
  (⟨(operatorTokenKind (currentChar s) (peekChar s)).1,
    if (operatorTokenKind (currentChar s) (peekChar s)).1 = .error
      then some "Unexpected character" else none,
    s.line, s.column⟩,
   advanceMany s (operatorTokenKind (currentChar s) (peekChar s)).2)

/-- lexer.c:414–582: the non-line-start part of one `lexer_tokenize`
main-loop iteration, after `lexer_skip_whitespace`.  The Bool is false
on the `break` (NUL before end of buffer, impossible for a C string but
kept faithful to the check at lexer.c:425). -/
def lexer_step_main (s : LexState) : LexState × Bool :=
  if currentChar s = '#' then (lexer_skip_comment s, true)
  else if currentChar s = '\x00' then (s, false)
  else if currentChar s = '\n' then
    (pushToken (advance s) ⟨.newline, none, s.line, s.column⟩, true)
  else if (currentChar s).isDigit then
    (pushToken (lexer_read_number s).2 (lexer_read_number s).1, true)
  else if currentChar s = '"' ∨ currentChar s = '\'' then
    (pushToken (lexer_read_string s).2 (lexer_read_string s).1, true)
  else if is_identifier_start (currentChar s) then
    (pushToken (lexer_read_identifier s).2 (lexer_read_identifier s).1, true)
  else
    (pushToken (lexer_read_operator s).2 (lexer_read_operator s).1, true)

def lexer_step (s : LexState) : LexState × Bool :=
  if s.atLineStart then (lexer_handle_indentation s, true)
  else lexer_step_main (lexer_skip_whitespace s)

/-- The `while (position < length)` loop of lexer.c:407, fuel-indexed.
Each iteration either advances `position` or turns `at_line_start` from
true to false, so `2*(length - position) + 1` bounds the number of
iterations; `lexer_tokenize` passes fuel dominating that bound. -/
def lexer_loop : Nat → LexState → LexState
  | 0, s => s
  | fuel + 1, s =>
    if s.position < s.source.length then
      if (lexer_step s).2 then lexer_loop fuel (lexer_step s).1 else (lexer_step s).1
    else s

/-- lexer.c:585–594: emit one DEDENT per remaining stack entry above the
base, then EOF. -/
def lexer_finalize (s : LexState) : List Token :=
  s.tokens
    ++ List.replicate (s.indentStack.length - 1) ⟨.dedent, none, s.line, s.column⟩
    ++ [⟨.eof, none, s.line, s.column⟩]

/-- The initial lexer state of lexer.c:155 (`lexer_new`). -/
def initLexState (source : List Char) : LexState :=
  ⟨source, 0, 1, 1, true, [0], []⟩

/-- lexer.c:406 `lexer_tokenize`. -/
def lexer_tokenize (source : List Char) : List Token :=
  lexer_finalize (lexer_loop (2 * source.length + 2) (initLexState source))

/-! ### Lexer support lemmas -/

theorem advance_source (s : LexState) : (advance s).source = s.source := by
  unfold advance; split_ifs <;> rfl

theorem advance_tokens (s : LexState) : (advance s).tokens = s.tokens := by
  unfold advance; split_ifs <;> rfl

theorem advance_indentStack (s : LexState) : (advance s).indentStack = s.indentStack := by
  unfold advance; split_ifs <;> rfl

theorem advanceMany_source (s : LexState) (n : Nat) :
    (advanceMany s n).source = s.source := by
  induction n generalizing s with
  | zero => rfl
  | succ n ih => rw [advanceMany, ih, advance_source]

theorem advanceMany_tokens (s : LexState) (n : Nat) :
    (advanceMany s n).tokens = s.tokens := by
  induction n generalizing s with
  | zero => rfl
  | succ n ih => rw [advanceMany, ih, advance_tokens]

theorem advanceMany_indentStack (s : LexState) (n : Nat) :
    (advanceMany s n).indentStack = s.indentStack := by
  induction n generalizing s with
  | zero => rfl
  | succ n ih => rw [advanceMany, ih, advance_indentStack]

theorem advance_position (s : LexState) (h : s.position < s.source.length) :
    (advance s).position = s.position + 1 := by
  unfold advance; rw [if_pos h]; split_ifs <;> rfl

theorem advanceMany_position (s : LexState) (n : Nat)
    (h : s.position + n ≤ s.source.length) :
    (advanceMany s n).position = s.position + n := by
  induction n generalizing s with
  | zero => rfl
  | succ n ih =>
    rw [advanceMany, ih]
    · rw [advance_position s (by omega)]; omega
    · rw [advance_position s (by omega), advance_source]; omega

/-- The number of INDENT (or DEDENT, …) tokens in a stream. -/
def countKind (k : TokKind) (ts : List Token) : Nat :=
  ts.countP (fun t => decide (t.kind = k))

theorem countKind_append (k : TokKind) (a b : List Token) :
    countKind k (a ++ b) = countKind k a + countKind k b :=
  List.countP_append _ _ _

theorem countKind_replicate (k : TokKind) (n : Nat) (t : Token) :
    countKind k (List.replicate n t) = if t.kind = k then n else 0 := by
  induction n with
  | zero => simp [countKind]
  | succ n ih =>
    rw [List.replicate_succ]
    show countKind k ([t] ++ List.replicate n t) = _
    rw [countKind_append, ih]
    by_cases h : t.kind = k <;> simp [countKind, h] <;> omega

theorem countKind_single (k : TokKind) (t : Token) :
    countKind k [t] = if t.kind = k then 1 else 0 := by
  by_cases h : t.kind = k <;> simp [countKind, h]

/-- Invariant of the lexer state driving the INDENT/DEDENT balance:
`#INDENT − #DEDENT` emitted so far equals the indent-stack height above
the base, and the stack is never empty. -/
abbrev LexInv (s : LexState) : Prop :=
  countKind .indent s.tokens + 1 = countKind .dedent s.tokens + s.indentStack.length ∧
    s.indentStack ≠ []

theorem popDedents_length (st : List Nat) (lvl : Nat) :
    (popDedents st lvl).1.length + (popDedents st lvl).2 = st.length := by
  induction st with
  | nil => rfl
  | cons a t ih =>
    cases t with
    | nil => rfl
    | cons b r =>
      rw [popDedents]
      split_ifs with h
      · dsimp only at ih ⊢
        simp only [List.length_cons] at ih ⊢
        omega
      · rfl

theorem popDedents_ne_nil (st : List Nat) (lvl : Nat) (h : st ≠ []) :
    (popDedents st lvl).1 ≠ [] := by
  induction st with
  | nil => exact absurd rfl h
  | cons a t ih =>
    cases t with
    | nil => simpa [popDedents] using h
    | cons b r =>
      rw [popDedents]
      split_ifs with hlt
      · simpa using ih (by simp)
      · simp

theorem pushToken_inv (s : LexState) (t : Token)
    (hi : t.kind ≠ .indent) (hd : t.kind ≠ .dedent) (h : LexInv s) :
    LexInv (pushToken s t) := by
  obtain ⟨hbal, hne⟩ := h
  refine ⟨?_, hne⟩
  unfold pushToken
  simp only [countKind_append, countKind_single, if_neg hi, if_neg hd]
  omega

theorem lexInv_advanceMany (s : LexState) (n : Nat) (h : LexInv s) :
    LexInv (advanceMany s n) :=
  ⟨by rw [advanceMany_tokens, advanceMany_indentStack]; exact h.1,
   by rw [advanceMany_indentStack]; exact h.2⟩

theorem handleIndentCore_inv (s1 : LexState) (lvl : Nat) (h : LexInv s1) :
    LexInv (handleIndentCore s1 lvl) := by
  obtain ⟨hbal, hne⟩ := h
  simp only [handleIndentCore]
  split_ifs with h1 h2 h3 h4
  · exact ⟨hbal, hne⟩
  · -- INDENT
    refine ⟨?_, by simp [pushToken]⟩
    simp only [pushToken, countKind_append, countKind_single, List.length_cons, reduceIte,
      reduceCtorEq]
    omega
  · -- DEDENTs then IndentationError
    have hlen := popDedents_length s1.indentStack lvl
    refine ⟨?_, ?_⟩
    · simp only [pushToken, countKind_append, countKind_single, countKind_replicate,
        reduceIte, reduceCtorEq]
      omega
    · simp only [pushToken]
      exact popDedents_ne_nil _ _ hne
  · -- DEDENTs, level matched
    have hlen := popDedents_length s1.indentStack lvl
    refine ⟨?_, ?_⟩
    · simp only [countKind_append, countKind_replicate, reduceIte, reduceCtorEq]
      omega
    · exact popDedents_ne_nil _ _ hne
  · -- equal indentation
    exact ⟨hbal, hne⟩

theorem handle_indentation_inv (s : LexState) (h : LexInv s) :
    LexInv (lexer_handle_indentation s) := by
  unfold lexer_handle_indentation
  split_ifs with h1
  · exact h
  · exact handleIndentCore_inv _ _ (lexInv_advanceMany _ _ h)

theorem ite_ne_aux {α : Type} {c : Prop} [Decidable c] {a b x : α}
    (ha : a ≠ x) (hb : b ≠ x) : (if c then a else b) ≠ x := by
  split <;> assumption

theorem keyword_token_type_ne (v : String) :
    keyword_token_type v ≠ .indent ∧ keyword_token_type v ≠ .dedent := by
  constructor
  · unfold keyword_token_type
    repeat' refine ite_ne_aux ?_ ?_
    all_goals decide
  · unfold keyword_token_type
    repeat' refine ite_ne_aux ?_ ?_
    all_goals decide

theorem operatorTokenKind_ne (c pk : Char) (k : TokKind)
    (hk : k = TokKind.indent ∨ k = TokKind.dedent) :
    (operatorTokenKind c pk).1 ≠ k := by
  unfold operatorTokenKind
  simp only [apply_ite Prod.fst]
  repeat' refine ite_ne_aux ?_ ?_
  all_goals rcases hk with rfl | rfl <;> decide

theorem read_operator_kind_ne (s : LexState) :
    (lexer_read_operator s).1.kind ≠ .indent ∧ (lexer_read_operator s).1.kind ≠ .dedent :=
  ⟨operatorTokenKind_ne _ _ _ (Or.inl rfl), operatorTokenKind_ne _ _ _ (Or.inr rfl)⟩

theorem lexInv_advance (s : LexState) (h : LexInv s) : LexInv (advance s) :=
  ⟨by rw [advance_tokens, advance_indentStack]; exact h.1,
   by rw [advance_indentStack]; exact h.2⟩

theorem lexer_step_main_inv (s : LexState) (h : LexInv s) :
    LexInv (lexer_step_main s).1 := by
  unfold lexer_step_main
  split_ifs with h1 h2 h3 h4 h5 h6
  · -- comment
    unfold lexer_skip_comment
    rw [if_pos h1]
    exact lexInv_advanceMany _ _ h
  · -- NUL break
    exact h
  · -- newline
    exact pushToken_inv _ _ (by simp) (by simp) (lexInv_advance _ h)
  · -- number
    exact pushToken_inv _ _ (by simp [lexer_read_number]) (by simp [lexer_read_number])
      (lexInv_advanceMany _ _ h)
  · -- string
    refine pushToken_inv _ _ (by simp [lexer_read_string]) (by simp [lexer_read_string]) ?_
    unfold lexer_read_string
    dsimp only
    split_ifs
    · exact lexInv_advance _ (lexInv_advanceMany _ _ (lexInv_advance _ h))
    · exact lexInv_advanceMany _ _ (lexInv_advance _ h)
  · -- identifier / keyword
    refine pushToken_inv _ _ ?_ ?_ (lexInv_advanceMany _ _ h)
    · simp only [lexer_read_identifier]
      split_ifs with hk
      · exact (keyword_token_type_ne _).1
      · simp
    · simp only [lexer_read_identifier]
      split_ifs with hk
      · exact (keyword_token_type_ne _).2
      · simp
  · -- operator
    exact pushToken_inv _ _ (read_operator_kind_ne _).1 (read_operator_kind_ne _).2
      (lexInv_advanceMany _ _ h)

theorem lexer_step_inv (s : LexState) (h : LexInv s) : LexInv (lexer_step s).1 := by
  unfold lexer_step
  split_ifs with h1
  · exact handle_indentation_inv s h
  · exact lexer_step_main_inv _ (lexInv_advanceMany _ _ h)

theorem lexer_loop_inv (fuel : Nat) (s : LexState) (h : LexInv s) :
    LexInv (lexer_loop fuel s) := by
  induction fuel generalizing s with
  | zero => exact h
  | succ fuel ih =>
    rw [lexer_loop]
    split_ifs with h1 h2
    · exact ih _ (lexer_step_inv s h)
    · exact lexer_step_inv s h
    · exact h

end Pyrinas

namespace Pyrinas

/-- C8: for every input string, the token stream produced by
`lexer_tokenize` contains equally many INDENT and DEDENT tokens.
Each INDENT push grows the indent stack by one, each DEDENT pop shrinks
it by one, and the end-of-input flush emits exactly one DEDENT per stack
entry above the base. -/
theorem c8_indent_dedent_balance (src : List Char) :
    countKind .indent (lexer_tokenize src) = countKind .dedent (lexer_tokenize src) := by
  have hinit : LexInv (initLexState src) := by
    constructor
    · simp [initLexState, countKind]
    · simp [initLexState]
  have h := lexer_loop_inv (2 * src.length + 2) _ hinit
  obtain ⟨hbal, hne⟩ := h
  unfold lexer_tokenize lexer_finalize
  simp only [countKind_append, countKind_replicate, countKind_single, reduceIte,
    reduceCtorEq]
  have : (lexer_loop (2 * src.length + 2) (initLexState src)).indentStack.length ≠ 0 := by
    simpa [List.length_eq_zero] using hne
  omega

end Pyrinas

namespace Pyrinas

/-! ### Per-line indentation behaviour (claim C7) -/

/-- Column count of a run of whitespace characters (space = 1, tab = 8),
the specification-level counterpart of `indentColsLoop`. -/
def wsCols : List Char → Nat
  | c :: rest => (if c = ' ' then 1 else 8) + wsCols rest
  | [] => 0

theorem indentColsLoop_append (ws rest : List Char) (acc : Nat)
    (hws : ∀ c ∈ ws, c = ' ' ∨ c = '\t')
    (hrest : ∀ c, rest.head? = some c → ¬(c = ' ' ∨ c = '\t')) :
    indentColsLoop (ws ++ rest) acc = (acc + wsCols ws, ws.length) := by
  induction ws generalizing acc with
  | nil =>
    cases rest with
    | nil => simp [indentColsLoop, wsCols]
    | cons c r =>
      have hc := hrest c rfl
      push_neg at hc
      simp [indentColsLoop, wsCols, hc.1, hc.2]
  | cons c ws ih =>
    have hc := hws c (by simp)
    have hrec := fun (a : Nat) => ih a (fun d hd => hws d (List.mem_cons_of_mem _ hd))
    rcases hc with rfl | rfl
    · have hstep : indentColsLoop (' ' :: (ws ++ rest)) acc =
          ((indentColsLoop (ws ++ rest) (acc + 1)).1,
            (indentColsLoop (ws ++ rest) (acc + 1)).2 + 1) := by
        rw [indentColsLoop]
        simp
      rw [List.cons_append, hstep, hrec]
      simp only [wsCols, List.length_cons, Prod.mk.injEq]
      refine ⟨by simp; omega, trivial⟩
    · have hstep : indentColsLoop ('\t' :: (ws ++ rest)) acc =
          ((indentColsLoop (ws ++ rest) (acc + 8)).1,
            (indentColsLoop (ws ++ rest) (acc + 8)).2 + 1) := by
        rw [indentColsLoop]
        simp
      rw [List.cons_append, hstep, hrec]
      simp only [wsCols, List.length_cons, Prod.mk.injEq]
      refine ⟨by simp; omega, trivial⟩

theorem popDedents_eq_dropWhile (st : List Nat) (lvl : Nat)
    (h : st.getLast? = some 0) :
    (popDedents st lvl).1 = st.dropWhile (fun a => decide (lvl < a)) := by
  induction st with
  | nil => simp at h
  | cons a t ih =>
    cases t with
    | nil =>
      have : a = 0 := by simpa using h
      subst this
      simp [popDedents, List.dropWhile]
    | cons b r =>
      rw [popDedents, List.dropWhile]
      split_ifs with hlt
      · have := ih (by simpa [List.getLast?_cons_cons] using h)
        simpa [hlt] using this
      · simp [hlt]

theorem currentChar_headD_drop (s : LexState) :
    currentChar s = (s.source.drop s.position).headD '\x00' := by
  unfold currentChar
  rw [List.getD_eq_getD_get?, List.headD_eq_head?, List.head?_drop,
    List.get?_eq_getElem?]

theorem advanceMany_drop (s : LexState) (ws rest : List Char)
    (hdrop : s.source.drop s.position = ws ++ rest) :
    (advanceMany s ws.length).source.drop (advanceMany s ws.length).position = rest := by
  cases hws : ws with
  | nil =>
    subst hws
    simpa [advanceMany] using hdrop
  | cons c t =>
    subst hws
    have hlen := congrArg List.length hdrop
    simp only [List.length_drop, List.length_append, List.length_cons] at hlen
    have hb : s.position + (c :: t).length ≤ s.source.length := by
      simp only [List.length_cons]
      omega
    rw [advanceMany_source, advanceMany_position s _ hb, ← List.drop_drop, hdrop]
    exact List.drop_left _ _

end Pyrinas

namespace Pyrinas

/-- C7 (amended): per-line indentation behaviour of
`lexer_handle_indentation`, for a line whose leading whitespace is `ws`
(space = 1 column, tab = 8) followed by `rest`.  When a `'\n'` or `'#'`
actually follows the whitespace, nothing is emitted; **otherwise** —
including at end of input, where a whitespace-only final line without a
terminating newline is processed like a code line — the count is
compared to the stack top: greater pushes and emits exactly one INDENT;
smaller pops every entry strictly greater than the count, emits one
DEDENT per pop and a single `IndentationError` ERROR token exactly when
the resulting top differs from the count; equal emits nothing.  At end
of input `lexer_tokenize` emits one DEDENT per remaining stack entry
above the base, then EOF. -/
theorem c7_indentation_per_line (s : LexState) (ws rest : List Char)
    (hals : s.atLineStart = true)
    (hdrop : s.source.drop s.position = ws ++ rest)
    (hws : ∀ c ∈ ws, c = ' ' ∨ c = '\t')
    (hrest : ∀ c, rest.head? = some c → ¬(c = ' ' ∨ c = '\t'))
    (hbase : s.indentStack.getLast? = some 0) :
    ((rest.head? = some '\n' ∨ rest.head? = some '#') →
        (lexer_handle_indentation s).tokens = s.tokens ∧
        (lexer_handle_indentation s).indentStack = s.indentStack) ∧
    (¬(rest.head? = some '\n' ∨ rest.head? = some '#') →
      ((s.indentStack.headD 0 < wsCols ws →
          (lexer_handle_indentation s).tokens =
            s.tokens ++ [⟨.indent, none, (advanceMany s ws.length).line,
              (advanceMany s ws.length).column⟩] ∧
          (lexer_handle_indentation s).indentStack = wsCols ws :: s.indentStack) ∧
       (wsCols ws < s.indentStack.headD 0 →
          (lexer_handle_indentation s).indentStack =
            s.indentStack.dropWhile (fun a => decide (wsCols ws < a)) ∧
          (lexer_handle_indentation s).tokens =
            s.tokens
              ++ List.replicate
                  (s.indentStack.length -
                    (s.indentStack.dropWhile (fun a => decide (wsCols ws < a))).length)
                  ⟨.dedent, none, (advanceMany s ws.length).line,
                    (advanceMany s ws.length).column⟩
              ++ (if (s.indentStack.dropWhile (fun a => decide (wsCols ws < a))).headD 0
                    ≠ wsCols ws then
                    [⟨.error, some "IndentationError", (advanceMany s ws.length).line,
                      (advanceMany s ws.length).column⟩]
                  else [])) ∧
       (wsCols ws = s.indentStack.headD 0 →
          (lexer_handle_indentation s).tokens = s.tokens ∧
          (lexer_handle_indentation s).indentStack = s.indentStack))) ∧
    (∀ src : List Char,
        lexer_tokenize src =
          (lexer_loop (2 * src.length + 2) (initLexState src)).tokens
            ++ List.replicate
                ((lexer_loop (2 * src.length + 2) (initLexState src)).indentStack.length - 1)
                ⟨.dedent, none, (lexer_loop (2 * src.length + 2) (initLexState src)).line,
                  (lexer_loop (2 * src.length + 2) (initLexState src)).column⟩
            ++ [⟨.eof, none, (lexer_loop (2 * src.length + 2) (initLexState src)).line,
                  (lexer_loop (2 * src.length + 2) (initLexState src)).column⟩]) := by
  have hcore : lexer_handle_indentation s =
      handleIndentCore (advanceMany s ws.length) (wsCols ws) := by
    unfold lexer_handle_indentation
    rw [if_neg (by simp [hals]), hdrop, indentColsLoop_append ws rest 0 hws hrest]
    norm_num
  have hcc : currentChar (advanceMany s ws.length) = rest.headD '\x00' := by
    rw [currentChar_headD_drop, advanceMany_drop s ws rest hdrop]
  have htok : (advanceMany s ws.length).tokens = s.tokens := advanceMany_tokens _ _
  have hstk : (advanceMany s ws.length).indentStack = s.indentStack :=
    advanceMany_indentStack _ _
  refine ⟨?_, ?_, fun src => rfl⟩
  · intro hblank
    have hcur : currentChar (advanceMany s ws.length) = '\n' ∨
        currentChar (advanceMany s ws.length) = '#' := by
      rcases hblank with h | h
      · left; rw [hcc, List.headD_eq_head?, h]; rfl
      · right; rw [hcc, List.headD_eq_head?, h]; rfl
    rw [hcore]
    unfold handleIndentCore
    rw [if_pos hcur]
    exact ⟨htok, hstk⟩
  · intro hnotblank
    have hcur : ¬(currentChar (advanceMany s ws.length) = '\n' ∨
        currentChar (advanceMany s ws.length) = '#') := by
      rw [hcc, List.headD_eq_head?]
      cases hr : rest.head? with
      | none =>
        intro hc
        rcases hc with hc | hc <;> exact absurd hc (by decide)
      | some c =>
        intro hc
        refine hnotblank ?_
        rcases hc with hc | hc
        · simp only [Option.getD_some] at hc
          exact Or.inl (hr.trans (by rw [hc]))
        · simp only [Option.getD_some] at hc
          exact Or.inr (hr.trans (by rw [hc]))
    rw [hcore]
    unfold handleIndentCore
    rw [if_neg hcur]
    dsimp only
    rw [hstk, htok]
    refine ⟨?_, ?_, ?_⟩
    · intro hlt
      rw [if_pos hlt]
      exact ⟨by simp [pushToken], by simp [pushToken]⟩
    · intro hgt
      rw [if_neg (by omega), if_pos hgt]
      have hdw := popDedents_eq_dropWhile s.indentStack (wsCols ws) hbase
      have hql := popDedents_length s.indentStack (wsCols ws)
      have hq2 : (popDedents s.indentStack (wsCols ws)).2 =
          s.indentStack.length -
            (s.indentStack.dropWhile (fun a => decide (wsCols ws < a))).length := by
        rw [hdw] at hql
        omega
      by_cases herr :
          (s.indentStack.dropWhile (fun a => decide (wsCols ws < a))).headD 0 ≠ wsCols ws
      · rw [if_pos (by rw [hdw]; exact herr), if_pos herr]
        refine ⟨by simp [pushToken, hdw], ?_⟩
        simp [pushToken, hdw, hq2]
      · rw [if_neg (by rw [hdw]; exact herr), if_neg herr]
        refine ⟨by simp [hdw], ?_⟩
        simp [hdw, hq2]
    · intro heq
      rw [if_neg (by omega), if_neg (by omega)]
      exact ⟨rfl, rfl⟩

/-- C7 counterexample: the input consisting of the single blank line
`"  "` (two spaces, no newline, end of input).  The claim says blank
lines emit no INDENT/DEDENT, but the code only treats a line as blank
when the character after the whitespace is `'\n'` or `'#'`; at end of
input it falls through to the comparison and emits an INDENT (then the
final flush emits the matching DEDENT). -/
theorem c7_counterexample :
    countKind .indent (lexer_tokenize "  ".toList) = 1 ∧
    lexer_tokenize "  ".toList =
      [⟨.indent, none, 1, 3⟩, ⟨.dedent, none, 1, 3⟩, ⟨.eof, none, 1, 3⟩] := by
  constructor
  · decide
  · decide

/-- Witness for `c7_indentation_per_line` at the concrete line `"  x"`
(indent 2 over stack top 0: one INDENT pushed). -/
theorem c7_indentation_witness :
    (∀ c ∈ [' ', ' '], c = ' ' ∨ c = '\t') ∧
    (lexer_handle_indentation ⟨"  x".toList, 0, 1, 1, true, [0], []⟩).tokens =
        [⟨.indent, none, 1, 3⟩] ∧
    (lexer_handle_indentation ⟨"  x".toList, 0, 1, 1, true, [0], []⟩).indentStack = [2, 0] := by
  have h := c7_indentation_per_line ⟨"  x".toList, 0, 1, 1, true, [0], []⟩ [' ', ' '] ['x']
    rfl (by decide) (by decide) (by decide) (by decide)
  have h2 := (h.2.1 (by decide)).1 (by decide)
  exact ⟨by decide, h2.1.trans (by decide), h2.2.trans (by decide)⟩

end Pyrinas

namespace Pyrinas

/-! ## AST (ast.h)

`Node.null` models a NULL `ASTNode*` (nullable child pointers and the
NULL results of parse functions); `NodeArray`s become `List Node`.
Constant ints are `Int` (no claim depends on 32-bit wraparound); the C
`double` of float constants is modelled as `ℚ` via the decimal lexeme. -/

inductive CBinOp where
  | add | sub | mult | div | mod | floordiv
  deriving DecidableEq, Repr

inductive CUnaryOp where
  | unot | usub | uadd
  deriving DecidableEq, Repr

inductive CmpOp where
  | eq | noteq | lt | lte | gt | gte
  deriving DecidableEq, Repr

inductive CBoolOp where
  | band | bor
  deriving DecidableEq, Repr

inductive Ctx where
  | load | store
  deriving DecidableEq, Repr

inductive ConstVal where
  | cint (i : Int)
  | cfloat (q : ℚ)
  | cstr (s : String)
  | cbool (b : Bool)
  | cnone
  deriving DecidableEq, Repr

inductive Node where
  | null
  | module (body : List Node)
  | functionDef (name : String) (args : Node) (returns : Node) (body : List Node)
      (decorators : List Node)
  | classDef (name : String) (bases : List Node) (body : List Node)
  | assign (targets : List Node) (value : Node)
  | annAssign (target : Node) (ann : Node) (value : Node)
  | ifStmt (test : Node) (body : List Node) (orelse : List Node)
  | whileStmt (test : Node) (body : List Node)
  | forStmt (target : Node) (iter : Node) (body : List Node)
  | breakStmt (label : Option String)
  | continueStmt (label : Option String)
  | returnStmt (value : Node)
  | exprStmt (value : Node)
  | passStmt
  | matchStmt (subject : Node) (cases : List Node)
  | matchCase (pattern : Node) (body : List Node)
  | name (id : String) (ctx : Ctx)
  | constant (value : ConstVal)
  | binop (left : Node) (op : CBinOp) (right : Node)
  | unaryop (op : CUnaryOp) (operand : Node)
  | compare (left : Node) (ops : List CmpOp) (comparators : List Node)
  | boolop (op : CBoolOp) (values : List Node)
  | call (func : Node) (args : List Node)
  | attr (value : Node) (attrName : String) (ctx : Ctx)
  | subscript (value : Node) (slice : Node) (ctx : Ctx)
  | arg (argName : String) (ann : Node)
  | arguments (args : List Node)
  deriving Repr

/-- `node != NULL` for the nullable node pointers (C truthiness tests
such as `while (node && …)` and `if (arg)`). -/
def Node.isNull : Node → Bool
  | .null => true
  | _ => false

/-! ## Parser (parser.c) — expression grammar

The parser state of parser.h: the token array with its cursor, and the
error slot.  All parse functions are fuel-indexed (the C functions
recurse on the shrinking token stream; fuel 0, which never occurs for
the stated fuel bounds, returns the NULL node). -/

structure PState where
  tokens : List Token
  current : Nat
  hasError : Bool
  errorMessage : Option String
  deriving DecidableEq, Repr

/-- parser.c:24 `current_token` (NULL past the end). -/
def current_token (p : PState) : Option Token :=
  p.tokens.get? p.current

/-- parser.c:31 `peek_token`. -/
def peek_token (p : PState) : Option Token :=
  p.tokens.get? (p.current + 1)

/-- parser.c:38 `match_token`. -/
def match_token (p : PState) (k : TokKind) : Bool :=
  match current_token p with
  | some t => t.kind = k
  | none => false

/-- parser.c:51 `advance_token`. -/
def advance_token (p : PState) : PState :=
  if p.current < p.tokens.length then { p with current := p.current + 1 } else p

/-- parser.c:43 `consume_token` (state, then the C function's Bool). -/
def consume_token (p : PState) (k : TokKind) : PState × Bool :=
  if match_token p k then (advance_token p, true) else (p, false)

/-- parser.c:63 `parser_error`. -/
def parser_error (p : PState) (msg : String) : PState :=
  { p with hasError := true, errorMessage := some msg }

/-- The lexer stores a value for NUMBER/STRING/IDENTIFIER tokens; the
parser dereferences it (never NULL on those kinds). -/
def tokValue (t : Token) : String :=
  t.value.getD ""

/-- C `atoi` on a digit lexeme (parser.c:652). -/
def atoiInt (s : String) : Int :=
  Int.ofNat ((s.toList.takeWhile Char.isDigit).foldl
    (fun acc c => acc * 10 + (c.toNat - '0'.toNat)) 0)

/-- C `atof` on a `digits[.digits]` lexeme (parser.c:649), as an exact
rational. -/
def atofRat (s : String) : ℚ :=
  let ds := s.toList
  let ip := ds.takeWhile Char.isDigit
  let rest := ds.dropWhile Char.isDigit
  let fp := if rest.head? = some '.' then rest.tail.takeWhile Char.isDigit else []
  (ip.foldl (fun acc c => acc * 10 + ((c.toNat : ℚ) - ('0'.toNat : ℚ))) 0) +
    (fp.foldl (fun acc c => acc * 10 + ((c.toNat : ℚ) - ('0'.toNat : ℚ))) 0) /
      ((10 : ℚ) ^ fp.length)

/-- parser.c:646–656: a NUMBER token becomes an int constant, or a float
constant when the lexeme contains a dot (`strchr(token->value, '.')`). -/
def numberNode (lexeme : String) : Node :=
  if lexeme.toList.contains '.' then Node.constant (.cfloat (atofRat lexeme))
  else Node.constant (.cint (atoiInt lexeme))

/-- parser.c:561–569: map a comparison token to `CompareOpType`
(`default: CMP_EQ`). -/
def cmp_of_token (k : TokKind) : CmpOp :=
  match k with
  | .eq => .eq
  | .ne => .noteq
  | .lt => .lt
  | .le => .lte
  | .gt => .gt
  | .ge => .gte
  | _ => .eq

/-- parser.c:608–614: map a multiplicative token to `BinOpType`
(`default: BINOP_MULT`). -/
def term_op_of_token (k : TokKind) : CBinOp :=
  match k with
  | .multiply => .mult
  | .divide => .div
  | .modulo => .mod
  | .floordiv => .floordiv
  | _ => .mult

mutual

/-- parser.c:502 `parse_expression`. -/
def parse_expression : Nat → PState → Node × PState
  | 0, p => (Node.null, p)
  | f + 1, p => parse_or_expression f p
termination_by structural f p => f

/-- parser.c:506 `parse_or_expression`. -/
def parse_or_expression : Nat → PState → Node × PState
  | 0, p => (Node.null, p)
  | f + 1, p =>
    let l := parse_and_expression f p
    orLoop f l.1 l.2
termination_by structural f p => f

/-- The `while (match TOK_OR)` loop of parser.c:509–520. -/
def orLoop : Nat → Node → PState → Node × PState
  | 0, left, p => (left, p)
  | f + 1, left, p =>
    if match_token p .kwOr then
      let r := parse_and_expression f (advance_token p)
      orLoop f (Node.boolop .bor [left, r.1]) r.2
    else (left, p)
termination_by structural f a b => f

/-- parser.c:523 `parse_and_expression`. -/
def parse_and_expression : Nat → PState → Node × PState
  | 0, p => (Node.null, p)
  | f + 1, p =>
    let l := parse_not_expression f p
    andLoop f l.1 l.2
termination_by structural f p => f

/-- The `while (match TOK_AND)` loop of parser.c:526–537. -/
def andLoop : Nat → Node → PState → Node × PState
  | 0, left, p => (left, p)
  | f + 1, left, p =>
    if match_token p .kwAnd then
      let r := parse_not_expression f (advance_token p)
      andLoop f (Node.boolop .band [left, r.1]) r.2
    else (left, p)
termination_by structural f a b => f

/-- parser.c:540 `parse_not_expression`. -/
def parse_not_expression : Nat → PState → Node × PState
  | 0, p => (Node.null, p)
  | f + 1, p =>
    if match_token p .kwNot then
      let r := parse_not_expression f (advance_token p)
      (Node.unaryop .unot r.1, r.2)
    else parse_comparison f p
termination_by structural f p => f

/-- parser.c:550 `parse_comparison`: after the left arithmetic
expression, **at most one** comparison operator is consumed; the Compare
node carries a single op and a single comparator. -/
def parse_comparison : Nat → PState → Node × PState
  | 0, p => (Node.null, p)
  | f + 1, p =>
    let l := parse_arithmetic_expression f p
    if match_token l.2 .eq ∨ match_token l.2 .ne ∨ match_token l.2 .lt ∨
        match_token l.2 .le ∨ match_token l.2 .gt ∨ match_token l.2 .ge then
      let op := cmp_of_token (((current_token l.2).map Token.kind).getD .eq)
      let r := parse_arithmetic_expression f (advance_token l.2)
      (Node.compare l.1 [op] [r.1], r.2)
    else l
termination_by structural f p => f

/-- parser.c:585 `parse_arithmetic_expression`. -/
def parse_arithmetic_expression : Nat → PState → Node × PState
  | 0, p => (Node.null, p)
  | f + 1, p =>
    let l := parse_term f p
    arithLoop f l.1 l.2
termination_by structural f p => f

/-- The `while (match PLUS|MINUS)` loop of parser.c:588–593. -/
def arithLoop : Nat → Node → PState → Node × PState
  | 0, left, p => (left, p)
  | f + 1, left, p =>
    if match_token p .plus ∨ match_token p .minus then
      let op : CBinOp := if match_token p .plus then .add else .sub
      let r := parse_term f (advance_token p)
      arithLoop f (Node.binop left op r.1) r.2
    else (left, p)
termination_by structural f a b => f

/-- parser.c:598 `parse_term`. -/
def parse_term : Nat → PState → Node × PState
  | 0, p => (Node.null, p)
  | f + 1, p =>
    let l := parse_factor f p
    termLoop f l.1 l.2
termination_by structural f p => f

/-- The `while (match MULT|DIV|MOD|FLOORDIV)` loop of parser.c:601–618. -/
def termLoop : Nat → Node → PState → Node × PState
  | 0, left, p => (left, p)
  | f + 1, left, p =>
    if match_token p .multiply ∨ match_token p .divide ∨
        match_token p .modulo ∨ match_token p .floordiv then
      let op := term_op_of_token (((current_token p).map Token.kind).getD .multiply)
      let r := parse_factor f (advance_token p)
      termLoop f (Node.binop left op r.1) r.2
    else (left, p)
termination_by structural f a b => f

/-- parser.c:623 `parse_factor`. -/
def parse_factor : Nat → PState → Node × PState
  | 0, p => (Node.null, p)
  | f + 1, p =>
    if match_token p .minus then
      let r := parse_factor f (advance_token p)
      (Node.unaryop .usub r.1, r.2)
    else if match_token p .plus then
      let r := parse_factor f (advance_token p)
      (Node.unaryop .uadd r.1, r.2)
    else parse_primary f p
termination_by structural f p => f

/-- parser.c:639 `parse_primary` (literal / name / parenthesised
expression, followed by the postfix loop). -/
def parse_primary : Nat → PState → Node × PState
  | 0, p => (Node.null, p)
  | f + 1, p =>
    match current_token p with
    | none => (Node.null, p)
    | some token =>
      let core : Node × PState :=
        if token.kind = .num then (numberNode (tokValue token), advance_token p)
        else if token.kind = .str then
          (Node.constant (.cstr (tokValue token)), advance_token p)
        else if token.kind = .kwTrue then (Node.constant (.cbool true), advance_token p)
        else if token.kind = .kwFalse then (Node.constant (.cbool false), advance_token p)
        else if token.kind = .kwNone then (Node.constant .cnone, advance_token p)
        else if token.kind = .ident then (Node.name (tokValue token) .load, advance_token p)
        else if token.kind = .lparen then
          let r := parse_expression f (advance_token p)
          let c := consume_token r.2 .rparen
          if c.2 then (r.1, c.1)
          else (Node.null, parser_error c.1 "Expected ')' after expression")
        else (Node.null, parser_error p "Unexpected token in expression")
      postfixLoop f core.1 core.2
termination_by structural f p => f

/-- The postfix loop of parser.c:700–711
(`while (node && (LPAREN | DOT | LBRACKET))`). -/
def postfixLoop : Nat → Node → PState → Node × PState
  | 0, n, p => (n, p)
  | f + 1, n, p =>
    if n.isNull = false ∧ (match_token p .lparen ∨ match_token p .dot ∨
        match_token p .lbracket) then
      if match_token p .lparen then
        let r := parse_call f n p
        postfixLoop f r.1 r.2
      else if match_token p .dot then
        let r := parse_attribute f n p
        postfixLoop f r.1 r.2
      else
        let r := parse_subscript f n p
        postfixLoop f r.1 r.2
    else (n, p)
termination_by structural f a b => f

/-- parser.c:716 `parse_call`. -/
def parse_call : Nat → Node → PState → Node × PState
  | 0, fn, p => (fn, p)
  | f + 1, fn, p =>
    let c := consume_token p .lparen
    if c.2 = false then (fn, c.1)
    else
      let r : List Node × PState :=
        if match_token c.1 .rparen then ([], c.1)
        else callArgsLoop f c.1
      let c2 := consume_token r.2 .rparen
      if c2.2 then (Node.call fn r.1, c2.1)
      else (fn, parser_error c2.1 "Expected ')' after arguments")
termination_by structural f a b => f

/-- The argument `do … while (consume COMMA)` loop of parser.c:723–729
(`if (arg)` skips NULL arguments). -/
def callArgsLoop : Nat → PState → List Node × PState
  | 0, p => ([], p)
  | f + 1, p =>
    let e := parse_expression f p
    let args1 : List Node := if e.1.isNull = false then [e.1] else []
    let c := consume_token e.2 .comma
    if c.2 then
      let r := callArgsLoop f c.1
      (args1 ++ r.1, r.2)
    else (args1, c.1)
termination_by structural f p => f

/-- parser.c:741 `parse_attribute`. -/
def parse_attribute : Nat → Node → PState → Node × PState
  | 0, v, p => (v, p)
  | _ + 1, v, p =>
    let c := consume_token p .dot
    if c.2 = false then (v, c.1)
    else
      match current_token c.1 with
      | some t =>
        if t.kind = .ident then (Node.attr v (tokValue t) .load, advance_token c.1)
        else (v, parser_error c.1 "Expected attribute name after '.'")
      | none => (v, parser_error c.1 "Expected attribute name after '.'")
termination_by structural f a b => f

/-- parser.c:760 `parse_subscript`. -/
def parse_subscript : Nat → Node → PState → Node × PState
  | 0, v, p => (v, p)
  | f + 1, v, p =>
    let c := consume_token p .lbracket
    if c.2 = false then (v, c.1)
    else
      let sl := parse_expression f c.1
      if sl.1.isNull then (v, parser_error sl.2 "Expected expression after '['")
      else
        let c2 := consume_token sl.2 .rbracket
        if c2.2 then (Node.subscript v sl.1 .load, c2.1)
        else (v, parser_error c2.1 "Expected ']' after subscript")
termination_by structural f a b => f

end

end Pyrinas

namespace Pyrinas

/-! ### Claim C5 — comparison chains -/

theorem current_token_drop_head (p : PState) :
    current_token p = (p.tokens.drop p.current).head? := by
  unfold current_token
  rw [List.head?_drop, List.get?_eq_getElem?]

/-- The comparison token kinds of parser.c:553–555. -/
def cmpKinds : List TokKind := [.eq, .ne, .lt, .le, .gt, .ge]

/-- The token kinds that keep `parse_arithmetic_expression` (or the
postfix loop inside it) consuming input. -/
def arithContKinds : List TokKind :=
  [.lparen, .dot, .lbracket, .multiply, .divide, .modulo, .floordiv, .plus, .minus]

theorem parse_arith_at_num (n : Nat) (p : PState) (t : Token) (rest : List Token)
    (hdrop : p.tokens.drop p.current = t :: rest)
    (ht : t.kind = .num)
    (hnext : ∀ u, rest.head? = some u → u.kind ∉ arithContKinds) :
    parse_arithmetic_expression (n + 5) p =
      (numberNode (tokValue t), { p with current := p.current + 1 }) := by
  have hcur : current_token p = some t := by
    rw [current_token_drop_head, hdrop]
    rfl
  have hlen : p.current < p.tokens.length := by
    have hl := congrArg List.length hdrop
    simp only [List.length_drop, List.length_cons] at hl
    omega
  have hadv : advance_token p = { p with current := p.current + 1 } := by
    unfold advance_token
    rw [if_pos hlen]
  have hcur1 : current_token { p with current := p.current + 1 } = rest.head? := by
    rw [current_token_drop_head]
    show (p.tokens.drop (p.current + 1)).head? = rest.head?
    rw [← List.drop_drop, hdrop]
    rfl
  have hmf : ∀ k ∈ arithContKinds,
      match_token { p with current := p.current + 1 } k = false := by
    intro k hk
    unfold match_token
    rw [hcur1]
    cases hr : rest.head? with
    | none => rfl
    | some u =>
      have hu := hnext u hr
      show decide (u.kind = k) = false
      exact decide_eq_false (fun he => hu (he ▸ hk))
  have hlp := hmf .lparen (by decide)
  have hdt := hmf .dot (by decide)
  have hlb := hmf .lbracket (by decide)
  have hmu := hmf .multiply (by decide)
  have hdv := hmf .divide (by decide)
  have hmo := hmf .modulo (by decide)
  have hfd := hmf .floordiv (by decide)
  have hpl := hmf .plus (by decide)
  have hmi := hmf .minus (by decide)
  have hprim : parse_primary (n + 2) p =
      (numberNode (tokValue t), { p with current := p.current + 1 }) := by
    simp only [parse_primary, hcur, ht, hadv, reduceIte, reduceCtorEq, postfixLoop,
      hlp, hdt, hlb, Node.isNull]
    simp
  have hfac : parse_factor (n + 3) p =
      (numberNode (tokValue t), { p with current := p.current + 1 }) := by
    have hmip : match_token p .minus = false := by
      unfold match_token
      rw [hcur]
      show decide (t.kind = .minus) = false
      rw [ht]
      decide
    have hplp : match_token p .plus = false := by
      unfold match_token
      rw [hcur]
      show decide (t.kind = .plus) = false
      rw [ht]
      decide
    simp only [parse_factor, hmip, hplp, reduceIte, Bool.false_eq_true, if_false]
    exact hprim
  have hterm : parse_term (n + 4) p =
      (numberNode (tokValue t), { p with current := p.current + 1 }) := by
    simp only [parse_term, hfac, termLoop, hmu, hdv, hmo, hfd]
    simp
  simp only [parse_arithmetic_expression, hterm, arithLoop, hpl, hmi]
  simp


theorem cmp_not_arith (k : TokKind) (h : k ∈ cmpKinds) : k ∉ arithContKinds := by
  fin_cases h <;> decide

/-- On a token window `a op1 b op2 c` (`op1`, `op2` comparison
operators, `a`, `b`, `c` NUMBER tokens), `parse_comparison` consumes
`a op1 b` only, building `Compare(a, [op1], [b])`, and stops with the
cursor on `op2`. -/
theorem parse_comparison_window (n : Nat) (p : PState) (t1 t2 t3 t4 t5 : Token)
    (rest : List Token)
    (hdrop : p.tokens.drop p.current = t1 :: t2 :: t3 :: t4 :: t5 :: rest)
    (h1 : t1.kind = .num) (h2 : t2.kind ∈ cmpKinds) (h3 : t3.kind = .num)
    (h4 : t4.kind ∈ cmpKinds) (h5 : t5.kind = .num) :
    parse_comparison (n + 12) p =
      (Node.compare (numberNode (tokValue t1)) [cmp_of_token t2.kind]
        [numberNode (tokValue t3)],
       { p with current := p.current + 3 }) ∧
    current_token { p with current := p.current + 3 } = some t4 := by
  have hlen := congrArg List.length hdrop
  simp only [List.length_drop, List.length_cons] at hlen
  have hdrop1 : p.tokens.drop (p.current + 1) = t2 :: t3 :: t4 :: t5 :: rest := by
    rw [← List.drop_drop, hdrop]
    rfl
  have hdrop2 : p.tokens.drop (p.current + 2) = t3 :: t4 :: t5 :: rest := by
    rw [show p.current + 2 = (p.current + 1) + 1 from rfl, ← List.drop_drop, hdrop1]
    rfl
  have hdrop3 : p.tokens.drop (p.current + 3) = t4 :: t5 :: rest := by
    rw [show p.current + 3 = (p.current + 2) + 1 from rfl, ← List.drop_drop, hdrop2]
    rfl
  have harith1 := parse_arith_at_num (n + 6) p t1 (t2 :: t3 :: t4 :: t5 :: rest) hdrop h1
    (fun u hu => by
      rw [List.head?_cons, Option.some.injEq] at hu
      exact hu ▸ cmp_not_arith _ h2)
  have hc1 : current_token { p with current := p.current + 1 } = some t2 := by
    rw [current_token_drop_head]
    show (p.tokens.drop (p.current + 1)).head? = some t2
    rw [hdrop1]
    rfl
  have hmt1 : ∀ k, match_token { p with current := p.current + 1 } k =
      decide (t2.kind = k) := by
    intro k
    unfold match_token
    rw [hc1]
  have hcond : match_token { p with current := p.current + 1 } TokKind.eq = true ∨
      match_token { p with current := p.current + 1 } TokKind.ne = true ∨
      match_token { p with current := p.current + 1 } TokKind.lt = true ∨
      match_token { p with current := p.current + 1 } TokKind.le = true ∨
      match_token { p with current := p.current + 1 } TokKind.gt = true ∨
      match_token { p with current := p.current + 1 } TokKind.ge = true := by
    simp only [hmt1, decide_eq_true_eq]
    simpa [cmpKinds] using h2
  have hadv1 : advance_token { p with current := p.current + 1 } =
      { p with current := p.current + 2 } := by
    unfold advance_token
    rw [if_pos (by simp only []; omega)]
  have harith2 := parse_arith_at_num (n + 6) { p with current := p.current + 2 } t3
    (t4 :: t5 :: rest) (by simpa using hdrop2) h3
    (fun u hu => by
      rw [List.head?_cons, Option.some.injEq] at hu
      exact hu ▸ cmp_not_arith _ h4)
  constructor
  · simp only [parse_comparison, harith1]
    rw [if_pos hcond]
    simp only [hc1, Option.map_some, Option.getD_some, hadv1]
    rw [show (n + 11) = (n + 6) + 5 from rfl, harith2]
    simp
  · rw [current_token_drop_head]
    show (p.tokens.drop (p.current + 3)).head? = some t4
    rw [hdrop3]
    rfl

/-- C5 counterexample: the token stream of `1 < 2 < 3`.  The claim says
the parser produces one Compare node with ops `[<, <]` and comparators
`[2, 3]` consuming the whole chain; the code builds `Compare(1, [<], [2])`
(a single op, a single comparator) and leaves the cursor on the second
`<` (token index 3). -/
theorem c5_counterexample :
    parse_comparison 20 ⟨lexer_tokenize "1 < 2 < 3".toList, 0, false, none⟩ =
      (Node.compare (Node.constant (.cint 1)) [CmpOp.lt] [Node.constant (.cint 2)],
       ⟨lexer_tokenize "1 < 2 < 3".toList, 3, false, none⟩) := by
  have h := parse_comparison_window 8 ⟨lexer_tokenize "1 < 2 < 3".toList, 0, false, none⟩
    ⟨.num, some "1", 1, 1⟩ ⟨.lt, none, 1, 3⟩ ⟨.num, some "2", 1, 5⟩
    ⟨.lt, none, 1, 7⟩ ⟨.num, some "3", 1, 9⟩ [⟨.eof, none, 1, 10⟩]
    (by decide) (by decide) (by decide) (by decide) (by decide) (by decide)
  exact h.1.trans (by rfl)

/-- C5 (amended): on a token window `a op1 b op2 c` with `op1`, `op2`
comparison operators and `a`, `b`, `c` NUMBER tokens, `parse_comparison`
consumes only the first operator pair: it yields the single node
`Compare(a, ops=[op1], comparators=[b])` and stops with the cursor on
`op2`, which stays unconsumed (at statement level the dangling operator
then surfaces as a parse error).  No Compare node with two ops is ever
built. -/
theorem c5_compare_chain (n : Nat) (p : PState) (t1 t2 t3 t4 t5 : Token)
    (rest : List Token)
    (hdrop : p.tokens.drop p.current = t1 :: t2 :: t3 :: t4 :: t5 :: rest)
    (h1 : t1.kind = .num) (h2 : t2.kind ∈ cmpKinds) (h3 : t3.kind = .num)
    (h4 : t4.kind ∈ cmpKinds) (h5 : t5.kind = .num) :
    parse_comparison (n + 12) p =
      (Node.compare (numberNode (tokValue t1)) [cmp_of_token t2.kind]
        [numberNode (tokValue t3)],
       { p with current := p.current + 3 }) ∧
    current_token { p with current := p.current + 3 } = some t4 :=
  parse_comparison_window n p t1 t2 t3 t4 t5 rest hdrop h1 h2 h3 h4 h5

/-- Witness for `c5_compare_chain` on the concrete stream of
`1 < 2 <= 3`. -/
theorem c5_compare_chain_witness :
    ((⟨lexer_tokenize "1 < 2 <= 3".toList, 0, false, none⟩ : PState).tokens.drop 0 =
      ⟨.num, some "1", 1, 1⟩ :: ⟨.lt, none, 1, 3⟩ :: ⟨.num, some "2", 1, 5⟩ ::
        ⟨.le, none, 1, 7⟩ :: ⟨.num, some "3", 1, 10⟩ :: [⟨.eof, none, 1, 11⟩]) ∧
    parse_comparison 20 ⟨lexer_tokenize "1 < 2 <= 3".toList, 0, false, none⟩ =
      (Node.compare (Node.constant (.cint 1)) [CmpOp.lt] [Node.constant (.cint 2)],
       ⟨lexer_tokenize "1 < 2 <= 3".toList, 3, false, none⟩) := by
  refine ⟨by decide, ?_⟩
  have h := c5_compare_chain 8 ⟨lexer_tokenize "1 < 2 <= 3".toList, 0, false, none⟩
    ⟨.num, some "1", 1, 1⟩ ⟨.lt, none, 1, 3⟩ ⟨.num, some "2", 1, 5⟩
    ⟨.le, none, 1, 7⟩ ⟨.num, some "3", 1, 10⟩ [⟨.eof, none, 1, 11⟩]
    (by decide) (by decide) (by decide) (by decide) (by decide) (by decide)
  exact h.1.trans (by rfl)

end Pyrinas

namespace Pyrinas

/-! ## Semantic analyzer (semantic.c)

Symbols, scopes and the two-pass analysis.  The scope chain is the list
`scopes` with the current scope at the head and the global scope as the
last element (semantic.c keeps the same chain through `parent` pointers;
the pointer discipline itself is modelled separately for claim C10).
Unused interop fields of `Symbol` (`c_library`, `implements`, `exports`)
stay NULL throughout analysis and are omitted. -/

inductive SymType where
  | svar | sfunc | sstruct | senum | sinterface | smodule
  deriving DecidableEq, Repr

structure Sym where
  name : String
  type : SymType
  value_type : Option String
  param_types : Option (List String)
  return_type : Option String
  fields : List (String × String)
  methods : List (String × List String × Option String)
  enum_members : List (String × Int)
  immutable : Bool
  is_c_function : Bool
  deriving DecidableEq, Repr

/-- semantic.c:7 `symbol_new`. -/
def symbol_new (name : String) (type : SymType) (value_type : Option String) : Sym :=
  ⟨name, type, value_type, none, none, [], [], [], false, false⟩

/-- semantic.c:183 `scope_lookup` (first symbol with the name, scan in
insertion order). -/
def scope_lookup (scope : List Sym) (name : String) : Option Sym :=
  scope.find? (fun s => s.name = name)

structure SymbolTable where
  scopes : List (List Sym)
  deriving DecidableEq, Repr

/-- semantic.c:196 `symbol_table_new` (one empty global scope). -/
def symbol_table_new : SymbolTable := ⟨[[]]⟩

/-- semantic.c:224 `symbol_table_push_scope`. -/
def symbol_table_push_scope (t : SymbolTable) : SymbolTable :=
  ⟨[] :: t.scopes⟩

/-- semantic.c:233 `symbol_table_pop_scope` (no-op when the current
scope is the global scope, or when there is no current scope). -/
def symbol_table_pop_scope (t : SymbolTable) : SymbolTable :=
  match t.scopes with
  | [] => t
  | [g] => ⟨[g]⟩
  | _ :: rest => ⟨rest⟩

/-- semantic.c:241 `symbol_table_insert` (into the current scope, at the
end of its symbol array). -/
def symbol_table_insert (t : SymbolTable) (s : Sym) : SymbolTable :=
  match t.scopes with
  | [] => t
  | c :: rest => ⟨(c ++ [s]) :: rest⟩

/-- The chain walk of semantic.c:246 `symbol_table_lookup`. -/
def lookup_chain : List (List Sym) → String → Option Sym
  | [], _ => none
  | c :: rest, n =>
    match scope_lookup c n with
    | some s => some s
    | none => lookup_chain rest n

/-- semantic.c:246 `symbol_table_lookup`. -/
def symbol_table_lookup (t : SymbolTable) (name : String) : Option Sym :=
  lookup_chain t.scopes name

/-- semantic.c:259 `symbol_table_lookup_current_scope`. -/
def symbol_table_lookup_current_scope (t : SymbolTable) (name : String) : Option Sym :=
  match t.scopes with
  | [] => none
  | c :: _ => scope_lookup c name

structure AState where
  symbol_table : SymbolTable
  current_function_return_type : Option String
  loop_depth : Int
  current_file : Option String
  has_error : Bool
  error_message : Option String
  deriving DecidableEq, Repr

/-- semantic.c:265 `semantic_analyzer_new`. -/
def semantic_analyzer_new (current_file : Option String) : AState :=
  ⟨symbol_table_new, none, 0, current_file, false, none⟩

/-- semantic.c:305 `semantic_error`. -/
def semantic_error (a : AState) (msg : String) : AState :=
  { a with has_error := true, error_message := some msg }

/-- semantic.c:314 `get_type_name` (Name id, or a string constant;
anything else — including subscripted types, see the TODO at
semantic.c:325 — yields NULL). -/
def get_type_name : Node → Option String
  | .name id _ => some id
  | .constant (.cstr s) => some s
  | _ => none

/-- C reads `node->name.id` out of the union without a tag check at a
few places (only ever reached with Name nodes). -/
def node_name_id : Node → String
  | .name id _ => id
  | _ => ""

/-- semantic.c:534–536: a module is exempt from the `main` requirement
when its path contains `/modules/` or contains `_utils.pyr` (the C code
uses `strstr`, i.e. containment, not an ends-with test). -/
def library_module_exempt (file : Option String) : Bool :=
  match file with
  | none => false
  | some f => strContains f "/modules/" || strContains f "_utils.pyr"

/-- The parameter-type extraction loop of semantic.c:493–511 (pass 1):
NULL on a parameter without annotation (the error case). -/
def collect_param_types : List Node → Option (List String)
  | [] => some []
  | .arg _ ann :: rest =>
    match get_type_name ann with
    | some t => (collect_param_types rest).map (t :: ·)
    | none => none
  | _ :: rest => collect_param_types rest

/-- The enum-member walk of semantic.c:649–684. -/
def collect_enum_members : List Node → Except String (List (String × Int))
  | [] => .ok []
  | stmt :: rest =>
    match stmt with
    | .assign targets value =>
      match targets with
      | [target] =>
        match target with
        | .name mname _ =>
          match value with
          | .constant (.cint v) =>
            (collect_enum_members rest).map (fun ms => (mname, v) :: ms)
          | _ => .error "Enum member must have integer value"
        | _ => .error "Invalid enum member assignment"
      | _ => .error "Invalid enum member assignment"
    | .passStmt => collect_enum_members rest
    | _ => .error "Enum can only contain member assignments"

/-- The field walk of semantic.c:709–725. -/
def collect_fields : List Node → Except String (List (String × String))
  | [] => .ok []
  | .annAssign target ann _ :: rest =>
    match get_type_name ann with
    | none => .error "Field must have type annotation"
    | some ft => (collect_fields rest).map (fun fs => (node_name_id target, ft) :: fs)
  | _ :: rest => collect_fields rest

/-- The method walk of semantic.c:728–760 (and the identical interface
walk at 767–799): skip `self`, silently skip unannotated parameters. -/
def collect_methods : List Node → List (String × List String × Option String)
  | [] => []
  | .functionDef mname margs mreturns _ _ :: rest =>
    let rt := if mreturns.isNull then none else get_type_name mreturns
    let ptys : List String :=
      match margs with
      | .arguments al =>
        (al.drop 1).foldr
          (fun ar acc =>
            match ar with
            | .arg _ ann =>
              match get_type_name ann with
              | some t => t :: acc
              | none => acc
            | _ => acc) []
      | _ => []
    (mname, ptys, rt) :: collect_methods rest
  | _ :: rest => collect_methods rest

/-- semantic.c:618 `analyze_class_def`. -/
def analyze_class_def (a : AState) (node : Node) : Bool × AState :=
  match node with
  | .classDef class_name bases body =>
    if (symbol_table_lookup_current_scope a.symbol_table class_name).isSome then
      (false, semantic_error a "Class already defined")
    else
      let is_enum := bases.any (fun b =>
        match b with
        | .name id _ => id = "Enum"
        | _ => false)
      if is_enum then
        match collect_enum_members body with
        | .error msg => (false, semantic_error a msg)
        | .ok members =>
          let sym := { symbol_new class_name .senum none with enum_members := members }
          (true, { a with symbol_table := symbol_table_insert a.symbol_table sym })
      else
        let has_fields := body.any (fun st =>
          match st with
          | .annAssign _ _ _ => true
          | _ => false)
        let has_method_implementations := body.any (fun st =>
          match st with
          | .functionDef _ _ _ fb _ =>
            decide (fb.length > 1) ||
              (decide (fb.length = 1) &&
                !(match fb.head? with
                  | some .passStmt => true
                  | _ => false))
          | _ => false)
        if has_fields || has_method_implementations then
          match collect_fields body with
          | .error msg => (false, semantic_error a msg)
          | .ok flds =>
            let sym := { symbol_new class_name .sstruct none with
              fields := flds, methods := collect_methods body }
            (true, { a with symbol_table := symbol_table_insert a.symbol_table sym })
        else
          let sym := { symbol_new class_name .sinterface none with
            methods := collect_methods body }
          (true, { a with symbol_table := symbol_table_insert a.symbol_table sym })
  | _ => (false, a)

end Pyrinas

namespace Pyrinas

/-! ### The analysis functions

Fuel-indexed mutual recursion (the C functions recurse on the AST; fuel
is decremented on every call so the recursion is structural and concrete
runs reduce in the kernel).  Fuel exhaustion returns `false`, and never
happens at the fuel used in the theorems below.

`analyze_expression` in C reports the type through a `char** result_type`
out-parameter that every caller initialises to NULL; the Lean versions
return the value that the caller's variable holds after the call, so the
stub analyzers (semantic.c:1137, 1181, 1182), which never write it,
return `none`. -/

/-- semantic.c:1133 — stub. -/
def analyze_if (a : AState) (_node : Node) : Bool × AState := (true, a)

/-- semantic.c:1134 — stub. -/
def analyze_while (a : AState) (_node : Node) : Bool × AState := (true, a)

/-- semantic.c:1135 — stub. -/
def analyze_for (a : AState) (_node : Node) : Bool × AState := (true, a)

/-- semantic.c:1136 — stub. -/
def analyze_return (a : AState) (_node : Node) : Bool × AState := (true, a)

/-- semantic.c:1137 — stub, does not write `result_type`. -/
def analyze_unaryop (a : AState) (_node : Node) : Bool × Option String × AState :=
  (true, none, a)

/-- semantic.c:1181 — stub, does not write `result_type`. -/
def analyze_boolop (a : AState) (_node : Node) : Bool × Option String × AState :=
  (true, none, a)

/-- semantic.c:1182 — stub, does not write `result_type`. -/
def analyze_subscript (a : AState) (_node : Node) : Bool × Option String × AState :=
  (true, none, a)

/-- semantic.c:890 `analyze_name`. -/
def analyze_name (a : AState) (node : Node) : Bool × Option String × AState :=
  match node with
  | .name id _ =>
    match symbol_table_lookup a.symbol_table id with
    | none => (false, none, semantic_error a "Variable not declared")
    | some sym => (true, sym.value_type, a)
  | _ => (false, none, a)

/-- semantic.c:906 `analyze_constant`. -/
def analyze_constant (a : AState) (node : Node) : Bool × Option String × AState :=
  match node with
  | .constant v =>
    match v with
    | .cint _ => (true, some "int", a)
    | .cfloat _ => (true, some "float", a)
    | .cstr _ => (true, some "str", a)
    | .cbool _ => (true, some "bool", a)
    | .cnone => (true, some "None", a)
  | _ => (false, none, a)

/-- The parameter-registration loop of semantic.c:578–598 (no
expression analysis, so no fuel needed). -/
def register_params : AState → List Node → Bool × AState
  | a, [] => (true, a)
  | a, .arg param_name ann :: rest =>
    match get_type_name ann with
    | none => (false, semantic_error a "Parameter must have type annotation")
    | some pt =>
      register_params
        { a with symbol_table :=
            symbol_table_insert a.symbol_table (symbol_new param_name .svar (some pt)) }
        rest
  | a, _ :: rest => register_params a rest

mutual

/-- semantic.c:425 `analyze_ast`. -/
def analyze_ast : Nat → AState → Node → Bool × AState
  | 0, a, _ => (false, a)
  | f + 1, a, node =>
    match node with
    | .null => (false, a)
    | .module _ => analyze_module f a node
    | .functionDef _ _ _ _ _ => analyze_function_def f a node
    | .classDef _ _ _ => (analyze_class_def a node)
    | .assign _ _ => analyze_assign f a node
    | .annAssign _ _ _ => analyze_ann_assign f a node
    | .ifStmt _ _ _ => analyze_if a node
    | .whileStmt _ _ => analyze_while a node
    | .forStmt _ _ _ => analyze_for a node
    | .returnStmt _ => analyze_return a node
    | .exprStmt v =>
      let r := analyze_expression f a v
      (r.1, r.2.2)
    | .breakStmt _ =>
      if a.loop_depth = 0 then (false, semantic_error a "break/continue outside loop")
      else (true, a)
    | .continueStmt _ =>
      if a.loop_depth = 0 then (false, semantic_error a "break/continue outside loop")
      else (true, a)
    | .passStmt => (true, a)
    | _ =>
      let r := analyze_expression f a node
      (r.1, r.2.2)
termination_by structural f a n => f

/-- semantic.c:473 `analyze_module`: pass 1 (signatures and classes),
the `main` check, pass 2 (bodies and top-level statements). -/
def analyze_module : Nat → AState → Node → Bool × AState
  | 0, a, _ => (false, a)
  | f + 1, a, node =>
    match node with
    | .module body =>
      let p1 := module_pass1 f a body
      if p1.1 = false then p1
      else
        let a1 := p1.2
        let main_missing : Bool :=
          match symbol_table_lookup a1.symbol_table "main" with
          | none => true
          | some s => decide (s.type ≠ .sfunc)
        if main_missing && !(library_module_exempt a1.current_file) then
          (false, semantic_error a1 "main function not found")
        else module_pass2 f a1 body
    | _ => (false, a)
termination_by structural f a n => f

/-- First pass of semantic.c:477–531: register function signatures and
class definitions. -/
def module_pass1 : Nat → AState → List Node → Bool × AState
  | 0, a, _ => (false, a)
  | f + 1, a, [] => (true, a)
  | f + 1, a, item :: rest =>
    match item with
    | .functionDef fname args returns _ _ =>
      let rt : Option String := if returns.isNull then none else get_type_name returns
      let pt : Option (Option (List String)) :=
        match args with
        | .arguments al =>
          match collect_param_types al with
          | some tys => some (some tys)
          | none => none
        | _ => some none
      match pt with
      | none => (false, semantic_error a "Parameter must have type annotation")
      | some param_types =>
        if (symbol_table_lookup_current_scope a.symbol_table fname).isSome then
          (false, semantic_error a "Function already defined")
        else
          let sym := { symbol_new fname .sfunc none with
            return_type := rt, param_types := param_types }
          module_pass1 f { a with symbol_table := symbol_table_insert a.symbol_table sym } rest
    | .classDef _ _ _ =>
      let r := analyze_class_def a item
      if r.1 then module_pass1 f r.2 rest else r
    | _ => module_pass1 f a rest
termination_by structural f a l => f

/-- Second pass of semantic.c:541–556. -/
def module_pass2 : Nat → AState → List Node → Bool × AState
  | 0, a, _ => (false, a)
  | f + 1, a, [] => (true, a)
  | f + 1, a, item :: rest =>
    match item with
    | .functionDef _ _ _ _ _ =>
      let r := analyze_function_def f a item
      if r.1 then module_pass2 f r.2 rest else r
    | .classDef _ _ _ => module_pass2 f a rest
    | _ =>
      let r := analyze_ast f a item
      if r.1 then module_pass2 f r.2 rest else r
termination_by structural f a l => f

/-- semantic.c:561 `analyze_function_def`. -/
def analyze_function_def : Nat → AState → Node → Bool × AState
  | 0, a, _ => (false, a)
  | f + 1, a, node =>
    match node with
    | .functionDef _ args returns body _ =>
      let old := a.current_function_return_type
      let a1 := { a with
        current_function_return_type :=
          if returns.isNull then none else get_type_name returns,
        symbol_table := symbol_table_push_scope a.symbol_table }
      let pr : Bool × AState :=
        match args with
        | .arguments al => register_params a1 al
        | _ => (true, a1)
      if pr.1 = false then
        (false, { pr.2 with
          symbol_table := symbol_table_pop_scope pr.2.symbol_table,
          current_function_return_type := old })
      else
        let r := analyze_body_stmts f pr.2 body
        (r.1, { r.2 with
          symbol_table := symbol_table_pop_scope r.2.symbol_table,
          current_function_return_type := old })
    | _ => (false, a)
termination_by structural f a n => f

/-- The body loop of semantic.c:601–608 (stop at the first failure). -/
def analyze_body_stmts : Nat → AState → List Node → Bool × AState
  | 0, a, _ => (false, a)
  | f + 1, a, [] => (true, a)
  | f + 1, a, stmt :: rest =>
    let r := analyze_ast f a stmt
    if r.1 then analyze_body_stmts f r.2 rest else r
termination_by structural f a l => f

/-- semantic.c:810 `analyze_ann_assign`. -/
def analyze_ann_assign : Nat → AState → Node → Bool × AState
  | 0, a, _ => (false, a)
  | f + 1, a, node =>
    match node with
    | .annAssign target ann value =>
      match target with
      | .name var_name _ =>
        match get_type_name ann with
        | none => (false, semantic_error a "Variable must have type annotation")
        | some type_name =>
          if (symbol_table_lookup_current_scope a.symbol_table var_name).isSome then
            (false, semantic_error a "Variable already declared in this scope")
          else
            if value.isNull then
              (true, { a with symbol_table := symbol_table_insert a.symbol_table (symbol_new var_name .svar (some type_name)) })
            else
              let r := analyze_expression f a value
              if r.1 = false then (false, r.2.2)
              else if types_compatible (some type_name) r.2.1 = false then
                (false, semantic_error r.2.2 "Type mismatch in assignment")
              else
                (true, { r.2.2 with symbol_table := symbol_table_insert r.2.2.symbol_table (symbol_new var_name .svar (some type_name)) })
      | _ => (false, semantic_error a "Invalid assignment target")
    | _ => (false, a)
termination_by structural f a n => f

/-- semantic.c:1089 `analyze_assign` (only the first target is
checked). -/
def analyze_assign : Nat → AState → Node → Bool × AState
  | 0, a, _ => (false, a)
  | f + 1, a, node =>
    match node with
    | .assign targets value =>
      let r := analyze_expression f a value
      if r.1 = false then (false, r.2.2)
      else
        let a1 := r.2.2
        let value_type := r.2.1
        match targets.head? with
        | none => (true, a1)
        | some target =>
          match target with
          | .name id _ =>
            match symbol_table_lookup a1.symbol_table id with
            | none => (false, semantic_error a1 "Variable not declared")
            | some sym =>
              if sym.value_type.isSome && value_type.isSome &&
                  !(types_compatible sym.value_type value_type) then
                (false, semantic_error a1 "Type mismatch in assignment")
              else (true, a1)
          | .subscript _ _ _ =>
            let r2 := analyze_expression f a1 target
            if r2.1 = false then (false, r2.2.2) else (true, r2.2.2)
          | _ => (true, a1)
    | _ => (false, a)
termination_by structural f a n => f

/-- semantic.c:862 `analyze_expression`. -/
def analyze_expression : Nat → AState → Node → Bool × Option String × AState
  | 0, a, _ => (false, none, a)
  | f + 1, a, node =>
    match node with
    | .null => (false, none, a)
    | .name _ _ => analyze_name a node
    | .constant _ => analyze_constant a node
    | .binop _ _ _ => analyze_binop f a node
    | .unaryop _ _ => analyze_unaryop a node
    | .compare _ _ _ => analyze_compare f a node
    | .boolop _ _ => analyze_boolop a node
    | .call _ _ => analyze_call f a node
    | .attr _ _ _ => analyze_attribute f a node
    | .subscript _ _ _ => analyze_subscript a node
    | _ => (false, none, semantic_error a "Unsupported expression type")
termination_by structural f a n => f

/-- semantic.c:935 `analyze_call`. -/
def analyze_call : Nat → AState → Node → Bool × Option String × AState
  | 0, a, _ => (false, none, a)
  | f + 1, a, node =>
    match node with
    | .call fn args =>
      match fn with
      | .name func_name _ =>
        if func_name = "print" then
          match args with
          | [arg0] =>
            let r := analyze_expression f a arg0
            if r.1 = false then (false, none, r.2.2)
            else (true, none, r.2.2)
          | _ => (false, none, semantic_error a "print() expects exactly one argument")
        else if func_name = "range" then
          match args with
          | [arg0] =>
            let r := analyze_expression f a arg0
            if r.1 = false then (false, none, r.2.2)
            else if r.2.1.isSome && !(r.2.1 = some "int") then
              (false, none, semantic_error r.2.2 "range() expects integer argument")
            else (true, some "range_object", r.2.2)
          | _ => (false, none, semantic_error a "range() expects exactly one argument")
        else
          match symbol_table_lookup a.symbol_table func_name with
          | none => (false, none, semantic_error a "Function not defined")
          | some func_symbol =>
            if func_symbol.type ≠ .sfunc then
              (false, none, semantic_error a "Function not defined")
            else
              let expected_args : Nat :=
                match func_symbol.param_types with
                | some l => l.length
                | none => 0
              if args.length ≠ expected_args then
                (false, none, semantic_error a "Function argument count mismatch")
              else
                let r := analyze_call_args f a args func_symbol.param_types
                if r.1 = false then (false, none, r.2)
                else (true, func_symbol.return_type, r.2)
      | _ => (false, none, semantic_error a "Unsupported function call type")
    | _ => (false, none, a)
termination_by structural f a n => f

/-- The argument-check loop of semantic.c:992–1011 (the parameter-type
list is consumed positionally; beyond its end no check is made). -/
def analyze_call_args : Nat → AState → List Node → Option (List String) → Bool × AState
  | 0, a, _, _ => (false, a)
  | f + 1, a, [], _ => (true, a)
  | f + 1, a, arg :: rest, ptys =>
    let r := analyze_expression f a arg
    if r.1 = false then (false, r.2.2)
    else
      match ptys with
      | some (e :: etl) =>
        if r.2.1.isSome && !(types_compatible (some e) r.2.1) then
          (false, semantic_error r.2.2 "Function argument type mismatch")
        else analyze_call_args f r.2.2 rest (some etl)
      | some [] => analyze_call_args f r.2.2 rest (some [])
      | none => analyze_call_args f r.2.2 rest none
termination_by structural f a l p => f

/-- semantic.c:1020 `analyze_binop` (result is always int or float). -/
def analyze_binop : Nat → AState → Node → Bool × Option String × AState
  | 0, a, _ => (false, none, a)
  | f + 1, a, node =>
    match node with
    | .binop l _ r =>
      let rl := analyze_expression f a l
      if rl.1 = false then (false, none, rl.2.2)
      else
        let rr := analyze_expression f rl.2.2 r
        if rr.1 = false then (false, none, rr.2.2)
        else
          let t : String :=
            if rl.2.1 = some "float" || rr.2.1 = some "float" then "float"
            else if rl.2.1 = some "int" && rr.2.1 = some "int" then "int"
            else "int"
          (true, some t, rr.2.2)
    | _ => (false, none, a)
termination_by structural f a n => f

/-- semantic.c:1138 `analyze_compare` (always yields "bool" on
success). -/
def analyze_compare : Nat → AState → Node → Bool × Option String × AState
  | 0, a, _ => (false, none, a)
  | f + 1, a, node =>
    match node with
    | .compare l _ comps =>
      let rl := analyze_expression f a l
      if rl.1 = false then (false, none, rl.2.2)
      else
        let r := analyze_comparators f rl.2.2 rl.2.1 comps
        if r.1 = false then (false, none, r.2)
        else (true, some "bool", r.2)
    | _ => (false, none, a)
termination_by structural f a n => f

/-- The comparator loop of semantic.c:1147–1172. -/
def analyze_comparators : Nat → AState → Option String → List Node → Bool × AState
  | 0, a, _, _ => (false, a)
  | f + 1, a, _, [] => (true, a)
  | f + 1, a, left_type, c :: rest =>
    let rr := analyze_expression f a c
    if rr.1 = false then (false, rr.2.2)
    else
      let bad : Bool :=
        match left_type, rr.2.1 with
        | some lt, some rt =>
          !(types_compatible (some lt) (some rt)) &&
          !(types_compatible (some rt) (some lt)) &&
          !((lt = "int" || lt = "float") && (rt = "int" || rt = "float"))
        | _, _ => false
      if bad then (false, semantic_error rr.2.2 "Cannot compare incompatible types")
      else analyze_comparators f rr.2.2 left_type rest
termination_by structural f a t l => f

/-- semantic.c:1051 `analyze_attribute`. -/
def analyze_attribute : Nat → AState → Node → Bool × Option String × AState
  | 0, a, _ => (false, none, a)
  | f + 1, a, node =>
    match node with
    | .attr value attr_field _ =>
      let r := analyze_expression f a value
      if r.1 = false then (false, none, r.2.2)
      else
        match r.2.1 with
        | none => (false, none, semantic_error r.2.2 "Cannot access attribute on unknown type")
        | some obj_type =>
          match symbol_table_lookup r.2.2.symbol_table obj_type with
          | none =>
            (false, none, semantic_error r.2.2 "Cannot access attribute on non-struct type")
          | some struct_symbol =>
            if struct_symbol.type ≠ .sstruct then
              (false, none, semantic_error r.2.2 "Cannot access attribute on non-struct type")
            else
              match struct_symbol.fields.find? (fun fd => fd.1 = attr_field) with
              | some fd => (true, some fd.2, r.2.2)
              | none => (false, none, semantic_error r.2.2 "Struct field not found")
    | _ => (false, none, a)
termination_by structural f a n => f

end

end Pyrinas

namespace Pyrinas

/-! ### Claim C2 — scope discipline of accepted programs

`analyze_if` (semantic.c:1133) is `{ return true; }`: statements nested
under `if`/`while`/`for` are never visited, so an accepted program can
contain a Load-context Name that resolves nowhere. -/

/-- `def main(): if True: q` — the name `q` is declared nowhere. -/
def c2_module_body : List Node :=
  [Node.functionDef "main" (.arguments []) .null
    [.ifStmt (.constant (.cbool true)) [.exprStmt (.name "q" .load)] []] []]

def c2_module : Node := .module c2_module_body

/-- C2: refuted (code bug).  The analyzer accepts `c2_module` although it
contains `Name "q"` in Load context and no scope of the analysis ever
holds a symbol named `q`: neither the final scope chain, nor the chain
visible inside `main`'s body (the pushed parameter scope over the
post-pass-1 global scope) where the `if` body containing `q` lives —
`analyze_if` is a stub and never analyzes it. -/
theorem c2_accepted_with_unresolvable_name :
    (analyze_ast 16 (semantic_analyzer_new (some "main.pyr")) c2_module).1 = true ∧
    (∀ scope ∈ ((analyze_ast 16 (semantic_analyzer_new (some "main.pyr")) c2_module).2.symbol_table).scopes,
      scope_lookup scope "q" = none) ∧
    symbol_table_lookup
      (symbol_table_push_scope
        ((module_pass1 14 (semantic_analyzer_new (some "main.pyr")) c2_module_body).2.symbol_table))
      "q" = none := by
  decide

/-! ### Claim C9 — the `main`-function requirement and library exemption

semantic.c:534–536 tests `strstr(current_file, "_utils.pyr")`:
containment, not an ends-with test. -/

/-- A module defining only `helper`, no `main`. -/
def c9_helper_body : List Node :=
  [Node.functionDef "helper" (.arguments []) .null [.passStmt] []]

def c9_helper_module : Node := .module c9_helper_body

/-- The symbol pass 1 registers for `helper`. -/
def c9_helper_sym : Sym :=
  { symbol_new "helper" .sfunc none with param_types := some [] }

/-- The analyzer state after pass 1 on `c9_helper_module`. -/
def c9_after_pass1 (file : Option String) : AState :=
  { symbol_table := ⟨[[c9_helper_sym]]⟩, current_function_return_type := none,
    loop_depth := 0, current_file := file, has_error := false, error_message := none }

/-- A path that merely CONTAINS "_utils.pyr" (not as a suffix) is
accepted by the C code without a `main` function, refuting the claim's
ends-with reading. -/
theorem c9_counterexample :
    library_module_exempt (some "lib_utils.pyr.backup") = true ∧
    (analyze_ast 16 (semantic_analyzer_new (some "lib_utils.pyr.backup")) c9_helper_module).1 = true ∧
    (analyze_ast 16 (semantic_analyzer_new (some "lib_utils.pyr.backup")) c9_helper_module).2.has_error = false := by
  decide

/-- C9 (amended): for every file path, the module without `main` is
accepted exactly when the path contains "/modules/" or contains
"_utils.pyr" (anywhere, by `strstr`); otherwise analysis fails with the
error "main function not found". -/
theorem c9_library_exemption (file : Option String) :
    (analyze_ast 16 (semantic_analyzer_new file) c9_helper_module).1 =
      library_module_exempt file ∧
    (library_module_exempt file = false →
      (analyze_ast 16 (semantic_analyzer_new file) c9_helper_module).2.error_message =
        some "main function not found") := by
  have step : analyze_ast 16 (semantic_analyzer_new file) c9_helper_module =
      (if true && !(library_module_exempt file) then
        (false, semantic_error (c9_after_pass1 file) "main function not found")
      else module_pass2 14 (c9_after_pass1 file) c9_helper_body) := rfl
  cases h : library_module_exempt file with
  | true =>
    refine ⟨?_, ?_⟩
    · rw [step, h]; rfl
    · intro hfalse; simp at hfalse
  | false =>
    refine ⟨?_, ?_⟩
    · rw [step, h]; rfl
    · intro _; rw [step, h]; rfl

/-- Witness for C9 at a plain (non-exempt) file path. -/
theorem c9_library_exemption_witness :
    (analyze_ast 16 (semantic_analyzer_new (some "helper.pyr")) c9_helper_module).1 =
      library_module_exempt (some "helper.pyr") ∧
    (analyze_ast 16 (semantic_analyzer_new (some "helper.pyr")) c9_helper_module).2.error_message =
      some "main function not found" :=
  ⟨(c9_library_exemption (some "helper.pyr")).1,
   (c9_library_exemption (some "helper.pyr")).2 (by decide)⟩

end Pyrinas

namespace Pyrinas

/-! ### Claim C10 — scope-chain discipline of push/pop (heap model)

semantic.c keeps `Scope*` pointers: `symbol_table_new` (196) allocates a
global scope with parent NULL and points `current_scope` at it;
`symbol_table_push_scope` (224) allocates a scope whose parent is the
current one; `symbol_table_pop_scope` (233) returns without effect when
`current_scope` is NULL or is the global scope, and otherwise frees the
current scope and moves to its parent.  We model the heap as an
association list from addresses to parent pointers (`none` = parent
NULL), with a bump allocator, so freeing and pointer identity are
explicit. -/

structure HeapTable where
  mem : List (Nat × Option Nat)
  next_addr : Nat
  global_addr : Nat
  current_addr : Option Nat
  deriving DecidableEq, Repr

/-- Read the parent pointer stored at address `a` (`none` = freed /
never allocated). -/
def heap_lookup (mem : List (Nat × Option Nat)) (a : Nat) : Option (Option Nat) :=
  (mem.find? (fun e => e.1 == a)).map (fun e => e.2)

/-- semantic.c:196 `symbol_table_new`: one global scope, parent NULL,
current = global. -/
def heap_symbol_table_new : HeapTable := ⟨[(0, none)], 1, 0, some 0⟩

/-- semantic.c:224 `symbol_table_push_scope`. -/
def heap_push_scope (t : HeapTable) : HeapTable :=
  ⟨(t.next_addr, t.current_addr) :: t.mem, t.next_addr + 1, t.global_addr, some t.next_addr⟩

/-- semantic.c:233 `symbol_table_pop_scope`: no-op when current is NULL
or is the global scope; otherwise free current and move to its parent.
(The inner `none` branch — popping a dangling current pointer — would be
undefined behaviour in C; the invariant below shows it is unreachable.) -/
def heap_pop_scope (t : HeapTable) : HeapTable :=
  match t.current_addr with
  | none => t
  | some c =>
    if c = t.global_addr then t
    else
      match heap_lookup t.mem c with
      | some parent =>
        { t with mem := t.mem.filter (fun e => !(e.1 == c)), current_addr := parent }
      | none => t

/-- The parent chain from address `x` reaches the global scope through
live entries with strictly decreasing addresses. -/
inductive ReachesGlobal (mem : List (Nat × Option Nat)) (g : Nat) : Nat → Prop where
  | base : ReachesGlobal mem g g
  | step (a p : Nat) : heap_lookup mem a = some (some p) → p < a →
      ReachesGlobal mem g p → ReachesGlobal mem g a

/-- The table invariant: allocated addresses are below the bump pointer,
the global scope is live with parent NULL (never freed), and the current
scope exists and reaches the global scope through parent pointers. -/
def HeapInv (t : HeapTable) : Prop :=
  (∀ e ∈ t.mem, e.1 < t.next_addr) ∧
  heap_lookup t.mem t.global_addr = some none ∧
  ∃ c, t.current_addr = some c ∧ c < t.next_addr ∧ ReachesGlobal t.mem t.global_addr c

theorem heap_lookup_cons (x : Nat × Option Nat) (mem : List (Nat × Option Nat)) (a : Nat) :
    heap_lookup (x :: mem) a = if x.1 = a then some x.2 else heap_lookup mem a := by
  by_cases h : x.1 = a <;> simp [heap_lookup, List.find?_cons, h]

theorem heap_lookup_isSome_mem {mem : List (Nat × Option Nat)} {a : Nat} {v : Option Nat}
    (h : heap_lookup mem a = some v) : ∃ e, e ∈ mem ∧ e.1 = a := by
  simp only [heap_lookup, Option.map_eq_some'] at h
  obtain ⟨e, hfind, _⟩ := h
  exact ⟨e, List.mem_of_find?_eq_some hfind, by simpa using List.find?_some hfind⟩

theorem reaches_cons_of_lt {mem : List (Nat × Option Nat)} {g : Nat} (n : Nat) (v : Option Nat) :
    ∀ {x : Nat}, ReachesGlobal mem g x → x < n → ReachesGlobal ((n, v) :: mem) g x := by
  intro x h
  induction h with
  | base => intro _; exact .base
  | step a p hl hp _ ih =>
    intro ha
    exact .step a p (by rw [heap_lookup_cons, if_neg (by omega)]; exact hl) hp (ih (by omega))

theorem lookup_filter_ne {mem : List (Nat × Option Nat)} {b c : Nat} (h : b ≠ c) :
    heap_lookup (mem.filter (fun e => !(e.1 == c))) b = heap_lookup mem b := by
  induction mem with
  | nil => rfl
  | cons x xs ih =>
    rw [List.filter_cons]
    by_cases hx : x.1 = c
    · have hkeep : (!(x.1 == c)) = false := by simp [hx]
      have hxb : ¬ (x.1 = b) := by omega
      simp [hkeep, heap_lookup_cons, hxb, ih]
    · have hkeep : (!(x.1 == c)) = true := by simp [hx]
      simp [hkeep, heap_lookup_cons, ih]

theorem reaches_filter {mem : List (Nat × Option Nat)} {g c : Nat} :
    ∀ {x : Nat}, ReachesGlobal mem g x → x < c →
      ReachesGlobal (mem.filter (fun e => !(e.1 == c))) g x := by
  intro x h
  induction h with
  | base => intro _; exact .base
  | step a p hl hp _ ih =>
    intro ha
    exact .step a p (by rw [lookup_filter_ne (by omega)]; exact hl) hp (ih (by omega))

theorem heapInv_new : HeapInv heap_symbol_table_new := by
  refine ⟨?_, rfl, 0, rfl, Nat.one_pos, .base⟩
  intro e he
  simp [heap_symbol_table_new] at he
  simp [he, heap_symbol_table_new]

theorem heapInv_push {t : HeapTable} (h : HeapInv t) : HeapInv (heap_push_scope t) := by
  obtain ⟨hb, hg, c, hc, hcn, hr⟩ := h
  obtain ⟨eg, heg, hega⟩ := heap_lookup_isSome_mem hg
  have hgn : t.global_addr < t.next_addr := hega ▸ hb eg heg
  refine ⟨?_, ?_, t.next_addr, rfl, Nat.lt_succ_self _, ?_⟩
  · intro e he
    rcases List.mem_cons.mp he with he | he
    · subst he; exact Nat.lt_succ_self _
    · exact Nat.lt_trans (hb e he) (Nat.lt_succ_self _)
  · show heap_lookup ((t.next_addr, t.current_addr) :: t.mem) t.global_addr = some none
    rw [heap_lookup_cons, if_neg (by omega)]
    exact hg
  · refine .step t.next_addr c ?_ hcn (reaches_cons_of_lt _ _ hr hcn)
    show heap_lookup ((t.next_addr, t.current_addr) :: t.mem) t.next_addr = some (some c)
    rw [heap_lookup_cons, if_pos rfl, hc]

theorem heapInv_pop {t : HeapTable} (h : HeapInv t) : HeapInv (heap_pop_scope t) := by
  obtain ⟨hb, hg, c, hc, hcn, hr⟩ := h
  by_cases hcg : c = t.global_addr
  · have hid : heap_pop_scope t = t := by simp [heap_pop_scope, hc, hcg]
    rw [hid]; exact ⟨hb, hg, c, hc, hcn, hr⟩
  · cases hr with
    | base => exact absurd rfl hcg
    | step a p hl hp hrp =>
      have hpop : heap_pop_scope t =
          { t with mem := t.mem.filter (fun e => !(e.1 == c)), current_addr := some p } := by
        simp [heap_pop_scope, hc, hcg, hl]
      rw [hpop]
      refine ⟨?_, ?_, p, rfl, ?_, ?_⟩
      · intro e he
        exact hb e (List.mem_of_mem_filter he)
      · show heap_lookup (t.mem.filter (fun e => !(e.1 == c))) t.global_addr = some none
        rw [lookup_filter_ne (Ne.symm hcg)]
        exact hg
      · show p < t.next_addr
        omega
      · exact reaches_filter hrp hp

/-- One analyzer scope operation: `true` = push, `false` = pop. -/
def heap_apply (t : HeapTable) (op : Bool) : HeapTable :=
  if op then heap_push_scope t else heap_pop_scope t

/-- The table after an arbitrary sequence of push/pop operations
starting from `symbol_table_new`. -/
def heap_run (ops : List Bool) : HeapTable :=
  ops.foldl heap_apply heap_symbol_table_new

theorem heapInv_run (ops : List Bool) : HeapInv (heap_run ops) := by
  suffices h : ∀ t, HeapInv t → HeapInv (ops.foldl heap_apply t) from h _ heapInv_new
  induction ops with
  | nil => intro t ht; exact ht
  | cons o os ih =>
    intro t ht
    refine ih (heap_apply t o) ?_
    cases o with
    | false => simpa [heap_apply] using heapInv_pop ht
    | true => simpa [heap_apply] using heapInv_push ht

/-- C10: after every sequence of `symbol_table_push_scope` /
`symbol_table_pop_scope` operations, the current scope exists and its
parent chain reaches the global scope; the global scope is still live
with parent NULL (never popped or freed); and when the current scope IS
the global scope, `symbol_table_pop_scope` is a no-op. -/
theorem c10_scope_chain_invariant (ops : List Bool) :
    (∃ c, (heap_run ops).current_addr = some c ∧
      ReachesGlobal (heap_run ops).mem (heap_run ops).global_addr c) ∧
    heap_lookup (heap_run ops).mem (heap_run ops).global_addr = some none ∧
    ((heap_run ops).current_addr = some (heap_run ops).global_addr →
      heap_pop_scope (heap_run ops) = heap_run ops) := by
  obtain ⟨hb, hg, c, hc, hcn, hr⟩ := heapInv_run ops
  refine ⟨⟨c, hc, hr⟩, hg, ?_⟩
  intro hcur
  simp [heap_pop_scope, hcur]

/-- Witness for C10: push then pop lands back on the global scope, and
there the pop is a no-op. -/
theorem c10_scope_chain_invariant_witness :
    heap_lookup (heap_run [true, false]).mem (heap_run [true, false]).global_addr = some none ∧
    heap_pop_scope (heap_run [true, false]) = heap_run [true, false] :=
  ⟨(c10_scope_chain_invariant [true, false]).2.1,
   (c10_scope_chain_invariant [true, false]).2.2 (by decide)⟩

end Pyrinas

namespace Pyrinas

/-! ## C emitter (codegen.c)

The C expression generators all append, in order, to the single `String*
output` they are given and touch no other buffer, so they are embedded
as functions returning the appended text; the statement generators carry
the full `CodeGenerator` state.  Fuel indexes the expression recursion
as for the parser. -/

/-- semantic.c:360 `extract_pointer_base_type`: the text between
`"ptr["` and the LAST `]` (strrchr). -/
def strrchrIndex (l : List Char) (c : Char) : Option Nat :=
  match l.reverse.findIdx? (fun x => x == c) with
  | some i => some (l.length - 1 - i)
  | none => none

def extract_pointer_base_type (t : String) : Option String :=
  if is_pointer_type (some t) then
    match strrchrIndex t.toList ']' with
    | some e => some (String.mk ((t.toList.drop 4).take (e - 4)))
    | none => none
  else none

/-- The base-type half of semantic.c:375 `parse_array_type`: text
between `"array["` and the first `,`; the caller's variable stays NULL
(`none`) when the `,` or the `]` is missing (codegen.c:64 initialises it
to NULL). -/
def parse_array_base (t : String) : Option String :=
  if is_array_type (some t) then
    match strstrIndex (t.toList.drop 6) [','], strrchrIndex t.toList ']' with
    | some ci, some _ => some (String.mk ((t.toList.drop 6).take ci))
    | _, _ => none
  else none

/-- codegen.c:44 `c_type_from_pyrinas_type`, fuel-indexed: every
recursive call strips at least 5 characters off the type string (or
reaches NULL), so `length + 1` fuel in the wrapper below suffices. -/
def c_type_go : Nat → Option String → String
  | _, none => "void"
  | 0, some _ => "void"
  | f + 1, some t =>
    if t = "int" then "int"
    else if t = "float" then "float"
    else if t = "bool" then "int"
    else if t = "str" then "char*"
    else if t = "void" then "void"
    else if is_pointer_type (some t) then c_type_go f (extract_pointer_base_type t) ++ "*"
    else if is_array_type (some t) then c_type_go f (parse_array_base t) ++ "*"
    else if is_result_type (some t) then "Result"
    else "struct " ++ t

def c_type_from_pyrinas_type (t : Option String) : String :=
  match t with
  | none => "void"
  | some s => c_type_go (s.length + 1) (some s)

/-- codegen.c:383 `generate_name`. -/
def generate_name : Node → String
  | .name id _ => id
  | _ => ""

/-- `%f`-style fixed-point rendering with 6 fractional digits of a
rational, rounding half away from zero.  codegen.c:394 formats a C
`double` with `sprintf("%f", …)`; the binary-double rounding of the C
toolchain is not modelled (no claim depends on float formatting). -/
def format_float6 (q : ℚ) : String :=
  let aq : ℚ := if q < 0 then -q else q
  let scaled : ℤ := Rat.floor (aq * 1000000 + 1 / 2)
  let ip := scaled / 1000000
  let fp := scaled % 1000000
  let fstr := toString fp
  let pad := String.mk (List.replicate (6 - fstr.length) '0') ++ fstr
  (if q < 0 then "-" else "") ++ toString ip ++ "." ++ pad

/-- codegen.c:383 `generate_constant`. -/
def generate_constant : Node → String
  | .constant v =>
    match v with
    | .cint i => toString i
    | .cfloat q => format_float6 q
    | .cstr s => "\"" ++ s ++ "\""
    | .cbool b => if b then "1" else "0"
    | .cnone => "NULL"
  | _ => ""

/-- The operator strings of codegen.c:412–425 (`generate_binop`;
FLOORDIV also emits `/`). -/
def binop_str : CBinOp → String
  | .add => " + "
  | .sub => " - "
  | .mult => " * "
  | .div => " / "
  | .mod => " % "
  | .floordiv => " / "

/-- The format-chunk switch inlined in codegen.c:441–517
(`generate_call`, print branch): the text appended before the argument,
quotes and trailing `, ` included. -/
def print_format_chunk (tab : SymbolTable) (arg : Node) : String :=
  match arg with
  | .constant cv =>
    match cv with
    | .cint _ => "\"%d\\n\", "
    | .cfloat _ => "\"%f\\n\", "
    | .cstr _ => "\"%s\\n\", "
    | .cbool _ => "\"%d\\n\", "
    | .cnone => "\"%s\\n\", "
  | .name id _ =>
    match symbol_table_lookup tab id with
    | some sym =>
      match sym.value_type with
      | some vt =>
        if vt = "float" then "\"%f\\n\", "
        else if vt = "str" then "\"%s\\n\", "
        else if vt = "bool" then "\"%d\\n\", "
        else "\"%d\\n\", "
      | none => "\"%d\\n\", "
    | none => "\"%d\\n\", "
  | .attr v field _ =>
    match v with
    | .name var_name _ =>
      match symbol_table_lookup tab var_name with
      | some vsym =>
        match vsym.value_type with
        | some vt =>
          match symbol_table_lookup tab vt with
          | some tsym =>
            if tsym.type = SymType.sstruct then
              match tsym.fields.find? (fun fd => fd.1 = field) with
              | some fd =>
                if fd.2 = "float" then "\"%f\\n\", "
                else if fd.2 = "str" then "\"%s\\n\", "
                else if fd.2 = "bool" then "\"%d\\n\", "
                else "\"%d\\n\", "
              | none => "\"%d\\n\", "
            else "\"%d\\n\", "
          | none => "\"%d\\n\", "
        | none => "\"%d\\n\", "
      | none => "\"%d\\n\", "
    | _ => "\"%d\\n\", "
  | _ => "\"%d\\n\", "

mutual

/-- codegen.c:339 `generate_expression` (dispatch; UnaryOp and BoolOp
generators are empty stubs, codegen.c:557–560/577). -/
def generate_expression : Nat → SymbolTable → Node → String
  | 0, _, _ => ""
  | f + 1, tab, node =>
    match node with
    | .name _ _ => generate_name node
    | .constant _ => generate_constant node
    | .binop _ _ _ => generate_binop f tab node
    | .unaryop _ _ => ""
    | .compare _ _ _ => generate_compare f tab node
    | .boolop _ _ => ""
    | .call _ _ => generate_call f tab node
    | .attr _ _ _ => generate_attribute f tab node
    | .subscript _ _ _ => generate_subscript f tab node
    | _ => ""
termination_by structural f t n => f

/-- codegen.c:412 `generate_binop`. -/
def generate_binop : Nat → SymbolTable → Node → String
  | 0, _, _ => ""
  | f + 1, tab, node =>
    match node with
    | .binop l op r =>
      "(" ++ generate_expression f tab l ++ binop_str op ++ generate_expression f tab r ++ ")"
    | _ => ""
termination_by structural f t n => f

/-- codegen.c:561 `generate_compare`: the operator emitted is the
LITERAL `==` ("Default operator"), whatever the node's ops say; only
the first comparator is used. -/
def generate_compare : Nat → SymbolTable → Node → String
  | 0, _, _ => ""
  | f + 1, tab, node =>
    match node with
    | .compare l _ comps =>
      generate_expression f tab l ++
        (match comps with
         | c0 :: _ => " " ++ "==" ++ " " ++ generate_expression f tab c0
         | [] => "")
    | _ => ""
termination_by structural f t n => f

/-- codegen.c:432 `generate_call`. -/
def generate_call : Nat → SymbolTable → Node → String
  | 0, _, _ => ""
  | f + 1, tab, node =>
    match node with
    | .call fn args =>
      match fn with
      | .name func_name _ =>
        if func_name = "print" then
          "printf(" ++
            (match args with
             | arg :: _ => print_format_chunk tab arg ++ generate_expression f tab arg
             | [] => "") ++ ")"
        else
          generate_expression f tab fn ++ "(" ++ generate_call_args f tab args true ++ ")"
      | _ => generate_expression f tab fn ++ "(" ++ generate_call_args f tab args true ++ ")"
    | _ => ""
termination_by structural f t n => f

/-- The argument loop of codegen.c:528–533. -/
def generate_call_args : Nat → SymbolTable → List Node → Bool → String
  | 0, _, _, _ => ""
  | _ + 1, _, [], _ => ""
  | f + 1, tab, x :: rest, first =>
    (if first then "" else ", ") ++ generate_expression f tab x ++
      generate_call_args f tab rest false
termination_by structural f t l b => f

/-- codegen.c:538 `generate_attribute`. -/
def generate_attribute : Nat → SymbolTable → Node → String
  | 0, _, _ => ""
  | f + 1, tab, node =>
    match node with
    | .attr v field _ => generate_expression f tab v ++ "." ++ field
    | _ => ""
termination_by structural f t n => f

/-- codegen.c:547 `generate_subscript`. -/
def generate_subscript : Nat → SymbolTable → Node → String
  | 0, _, _ => ""
  | f + 1, tab, node =>
    match node with
    | .subscript v s _ =>
      generate_expression f tab v ++ "[" ++ generate_expression f tab s ++ "]"
    | _ => ""
termination_by structural f t n => f

end

end Pyrinas

namespace Pyrinas

/-! ### Statement generators and the output cursor (codegen.c:187–340) -/

/-- Which of the four buffers `current_output` points at (it is only
ever assigned `main_code` — codegen.c:13 — or `function_definitions` —
codegen.c:226/234). -/
inductive BufId where
  | mainBuf | funcsBuf | structsBuf | includesBuf
  deriving DecidableEq, Repr

structure CodeGenerator where
  main_code : String
  function_definitions : String
  struct_definitions : String
  includes : String
  current_output : BufId
  symbol_table : SymbolTable
  indent_level : Nat
  deriving DecidableEq, Repr

/-- codegen.c:5 `codegen_new`. -/
def codegen_new (tab : SymbolTable) : CodeGenerator :=
  ⟨"", "", "", "#include \"../runtime/pyrinas.h\"\n", .mainBuf, tab, 0⟩

/-- `string_append(<buffer>, s)`. -/
def append_buf (cg : CodeGenerator) (b : BufId) (s : String) : CodeGenerator :=
  match b with
  | .mainBuf => { cg with main_code := cg.main_code ++ s }
  | .funcsBuf => { cg with function_definitions := cg.function_definitions ++ s }
  | .structsBuf => { cg with struct_definitions := cg.struct_definitions ++ s }
  | .includesBuf => { cg with includes := cg.includes ++ s }

/-- codegen.c:38 `generate_indent` (four spaces per level). -/
def indent_str (cg : CodeGenerator) : String :=
  String.join (List.replicate cg.indent_level "    ")

/-- codegen.c:282 `generate_ann_assign` — appends to `main_code`
directly, NOT through `current_output`. -/
def generate_ann_assign (f : Nat) (cg : CodeGenerator) (node : Node) : CodeGenerator :=
  match node with
  | .annAssign target ann value =>
    let c_type := c_type_from_pyrinas_type (get_type_name ann)
    let cg1 := append_buf cg .mainBuf (indent_str cg ++ c_type ++ " " ++ node_name_id target)
    let cg2 :=
      if value.isNull then cg1
      else append_buf cg1 .mainBuf (" = " ++ generate_expression f cg1.symbol_table value)
    append_buf cg2 .mainBuf ";\n"
  | _ => cg

/-- codegen.c:306 `generate_assign` — appends to `main_code`. -/
def generate_assign (f : Nat) (cg : CodeGenerator) (node : Node) : CodeGenerator :=
  match node with
  | .assign targets value =>
    let cg1 := append_buf cg .mainBuf (indent_str cg)
    let cg2 :=
      match targets with
      | t0 :: _ => append_buf cg1 .mainBuf (generate_expression f cg1.symbol_table t0)
      | [] => cg1
    append_buf cg2 .mainBuf (" = " ++ generate_expression f cg2.symbol_table value ++ ";\n")
  | _ => cg

/-- codegen.c:321 `generate_return` — the only statement generator that
writes through `current_output`. -/
def generate_return (f : Nat) (cg : CodeGenerator) (node : Node) : CodeGenerator :=
  match node with
  | .returnStmt value =>
    let cg1 := append_buf cg cg.current_output (indent_str cg ++ "return")
    let cg2 :=
      if value.isNull then cg1
      else append_buf cg1 cg.current_output (" " ++ generate_expression f cg1.symbol_table value)
    append_buf cg2 cg.current_output ";\n"
  | _ => cg

/-- codegen.c:333 `generate_expr_stmt` — appends to `main_code`. -/
def generate_expr_stmt (f : Nat) (cg : CodeGenerator) (node : Node) : CodeGenerator :=
  match node with
  | .exprStmt v =>
    append_buf cg .mainBuf (indent_str cg ++ generate_expression f cg.symbol_table v ++ ";\n")
  | _ => cg

/-- codegen.c:241 `generate_statement` (if/while/for are empty stubs,
codegen.c:554–556; break/continue append to `main_code`). -/
def generate_statement (f : Nat) (cg : CodeGenerator) (node : Node) : CodeGenerator :=
  match node with
  | .annAssign _ _ _ => generate_ann_assign f cg node
  | .assign _ _ => generate_assign f cg node
  | .ifStmt _ _ _ => cg
  | .whileStmt _ _ => cg
  | .forStmt _ _ _ => cg
  | .returnStmt _ => generate_return f cg node
  | .exprStmt _ => generate_expr_stmt f cg node
  | .breakStmt _ => append_buf cg .mainBuf (indent_str cg ++ "break;\n")
  | .continueStmt _ => append_buf cg .mainBuf (indent_str cg ++ "continue;\n")
  | _ => cg

/-- The statement loop of codegen.c:228–231. -/
def generate_body_stmts (f : Nat) : CodeGenerator → List Node → CodeGenerator
  | cg, [] => cg
  | cg, s :: rest => generate_body_stmts f (generate_statement f cg s) rest

/-- The parameter loop of codegen.c:201–221 (the `", "` separator is
appended before the AST_ARG check). -/
def function_params_str : Bool → List Node → String
  | _, [] => ""
  | first, a :: rest =>
    (if first then "" else ", ") ++
      (match a with
       | .arg an ann => c_type_from_pyrinas_type (get_type_name ann) ++ " " ++ an
       | _ => "") ++ function_params_str false rest

/-- codegen.c:187 `generate_function_def`: signature into
`function_definitions`, save/redirect/restore `current_output` around
the body. -/
def generate_function_def (f : Nat) (cg : CodeGenerator) (node : Node) : CodeGenerator :=
  match node with
  | .functionDef fname args _ body _ =>
    match symbol_table_lookup cg.symbol_table fname with
    | none => cg
    | some func_symbol =>
      let return_type := c_type_from_pyrinas_type func_symbol.return_type
      let cg1 := append_buf cg .funcsBuf (return_type ++ " " ++ fname ++ "(")
      let cg2 :=
        match args with
        | .arguments al => append_buf cg1 .funcsBuf (function_params_str true al)
        | _ => cg1
      let cg3 := append_buf cg2 .funcsBuf ") \x7b\n"
      let saved := cg3.current_output
      let cg4 := { cg3 with current_output := BufId.funcsBuf, indent_level := 1 }
      let cg5 := generate_body_stmts f cg4 body
      let cg6 := { cg5 with indent_level := 0, current_output := saved }
      append_buf cg6 .funcsBuf "\x7d\n\n"
  | _ => cg

end Pyrinas

namespace Pyrinas

/-! ### Claim C1 — the comparison operator the emitter outputs -/

/-- Modelled from the spec/claim: the C operator corresponding to each
comparison operator. -/
def claim_cmp_c_op : CmpOp → String
  | .eq => "=="
  | .noteq => "!="
  | .lt => "<"
  | .lte => "<="
  | .gt => ">"
  | .gte => ">="

def c1_node (op : CmpOp) : Node :=
  .compare (.constant (.cint 1)) [op] [.constant (.cint 2)]

/-- C1: refuted (code bug).  For EVERY comparison operator the emitter
outputs `1 == 2` — codegen.c:573 appends the literal `"=="` ("Default
operator") and never consults the node's ops — so for every operator
other than `==` the output differs from the claimed
`<L> <c-op> <R>`. -/
theorem c1_compare_emits_fixed_eq (op : CmpOp) :
    generate_expression 4 symbol_table_new (c1_node op) = "1 == 2" ∧
    (op ≠ CmpOp.eq →
      generate_expression 4 symbol_table_new (c1_node op) ≠
        "1 " ++ claim_cmp_c_op op ++ " 2") := by
  cases op <;> exact ⟨rfl, by decide⟩

/-- Witness for C1 at `op = <`. -/
theorem c1_compare_emits_fixed_eq_witness :
    generate_expression 4 symbol_table_new (c1_node CmpOp.lt) = "1 == 2" ∧
    generate_expression 4 symbol_table_new (c1_node CmpOp.lt) ≠
      "1 " ++ claim_cmp_c_op CmpOp.lt ++ " 2" :=
  ⟨(c1_compare_emits_fixed_eq CmpOp.lt).1,
   (c1_compare_emits_fixed_eq CmpOp.lt).2 (by decide)⟩

/-! ### Claim C3 — the print format specifier -/

/-- Modelled from the claim: `%d` / `%f` / `%s` chosen by a type
string. -/
def claim_value_fmt (t : Option String) : String :=
  match t with
  | none => "%d"
  | some s => if s = "float" then "%f" else if s = "str" then "%s" else "%d"

/-- Modelled from the claim (as amended): the static type the emitter
consults for a print argument — constants carry their own type, names
their symbol's value type, attribute accesses the struct field's type;
other shapes none. -/
def claim_arg_print_type (tab : SymbolTable) (arg : Node) : Option String :=
  match arg with
  | .name id _ => (symbol_table_lookup tab id).bind (fun s => s.value_type)
  | .attr v field _ =>
    match v with
    | .name var_name _ =>
      match (symbol_table_lookup tab var_name).bind (fun s => s.value_type) with
      | some vt =>
        match symbol_table_lookup tab vt with
        | some tsym =>
          if tsym.type = SymType.sstruct then
            (tsym.fields.find? (fun fd => fd.1 = field)).map (fun fd => fd.2)
          else none
        | none => none
      | none => none
    | _ => none
  | _ => none

/-- Modelled from the claim (as amended): the format specifier for a
print argument.  Constants use their constant kind (`None` prints with
`%s`); names and struct-field accesses use `claim_value_fmt` of the
looked-up type; all other shapes default to `%d`. -/
def claim_print_fmt (tab : SymbolTable) (arg : Node) : String :=
  match arg with
  | .constant cv =>
    match cv with
    | .cint _ => "%d"
    | .cfloat _ => "%f"
    | .cstr _ => "%s"
    | .cbool _ => "%d"
    | .cnone => "%s"
  | .name _ _ => claim_value_fmt (claim_arg_print_type tab arg)
  | .attr _ _ _ => claim_value_fmt (claim_arg_print_type tab arg)
  | _ => "%d"

/-- `f()` where `f` is a user function of static return type `float`. -/
def c3_f_sym : Sym :=
  { symbol_new "f" .sfunc none with param_types := some [], return_type := some "float" }

def c3_tab : SymbolTable := ⟨[[c3_f_sym]]⟩

def c3_astate : AState := { semantic_analyzer_new none with symbol_table := c3_tab }

def c3_arg : Node := .call (.name "f" .load) []

def c3_print : Node := .call (.name "print" .load) [c3_arg]

/-- The semantic analyzer gives `f()` static type `float`, yet
`print(f())` is emitted with `%d`: the emitter's switch keys on the
argument's SHAPE (constant / name / attribute), not on its static type,
and a call argument falls into the `%d` default — refuting the "for all
argument expression shapes" part of the claim. -/
theorem c3_counterexample :
    (analyze_expression 8 c3_astate c3_arg).2.1 = some "float" ∧
    generate_expression 8 c3_tab c3_print = "printf(\"%d\\n\", f())" ∧
    claim_value_fmt (some "float") = "%f" := by
  decide

/-- C3 (amended): `print` with one argument emits
`printf("<fmt>\n", <arg>)` where `<fmt>` is `claim_print_fmt`: the
type mapping of the claim applied to constants, names and struct-field
attribute accesses, and `%d` for every other argument shape (`None`
constants print with `%s`). -/
theorem c3_print_format (f : Nat) (tab : SymbolTable) (arg : Node) :
    generate_call (f + 1) tab (.call (.name "print" .load) [arg]) =
      "printf(" ++ ("\"" ++ claim_print_fmt tab arg ++ "\\n\", ") ++
        generate_expression f tab arg ++ ")" := by
  have hchunk : print_format_chunk tab arg =
      "\"" ++ claim_print_fmt tab arg ++ "\\n\", " := by
    cases arg with
    | constant cv => cases cv <;> rfl
    | name id ctx =>
      cases h1 : symbol_table_lookup tab id with
      | none =>
        simp [print_format_chunk, claim_print_fmt, claim_arg_print_type, claim_value_fmt, h1]
      | some sym =>
        cases h2 : sym.value_type with
        | none =>
          simp [print_format_chunk, claim_print_fmt, claim_arg_print_type, claim_value_fmt,
            h1, h2]
        | some vt =>
          simp only [print_format_chunk, claim_print_fmt, claim_arg_print_type,
            claim_value_fmt, h1, h2, Option.some_bind]
          split_ifs <;> rfl
    | attr v field ctx =>
      cases v with
      | name var_name vctx =>
        cases h1 : symbol_table_lookup tab var_name with
        | none =>
          simp [print_format_chunk, claim_print_fmt, claim_arg_print_type, claim_value_fmt, h1]
        | some vsym =>
          cases h2 : vsym.value_type with
          | none =>
            simp [print_format_chunk, claim_print_fmt, claim_arg_print_type,
              claim_value_fmt, h1, h2]
          | some vt =>
            cases h3 : symbol_table_lookup tab vt with
            | none =>
              simp [print_format_chunk, claim_print_fmt, claim_arg_print_type,
                claim_value_fmt, h1, h2, h3]
            | some tsym =>
              by_cases h4 : tsym.type = SymType.sstruct
              · cases h5 : tsym.fields.find? (fun fd => fd.1 = field) with
                | none =>
                  simp [print_format_chunk, claim_print_fmt, claim_arg_print_type,
                    claim_value_fmt, h1, h2, h3, h4, h5]
                | some fd =>
                  simp only [print_format_chunk, claim_print_fmt, claim_arg_print_type,
                    claim_value_fmt, h1, h2, h3, h4, h5, if_true, Option.some_bind,
                    Option.map_some']
                  split_ifs <;> rfl
              · simp [print_format_chunk, claim_print_fmt, claim_arg_print_type,
                  claim_value_fmt, h1, h2, h3, h4]
      | _ => rfl
    | _ => rfl
  show "printf(" ++ (print_format_chunk tab arg ++ generate_expression f tab arg) ++ ")" = _
  rw [hchunk]
  simp [String.append_assoc]

end Pyrinas

namespace Pyrinas

/-! ### Claim C6 — where function-body statements are emitted -/

def c6_foo_sym : Sym := { symbol_new "foo" .sfunc none with param_types := some [] }

def c6_cg0 : CodeGenerator := codegen_new ⟨[[c6_foo_sym]]⟩

/-- `def foo(): x: int = 1` (a non-main function with one declaration
in its body). -/
def c6_fn : Node :=
  .functionDef "foo" (.arguments []) .null
    [.annAssign (.name "x" .store) (.name "int" .load) (.constant (.cint 1))] []

/-- C6: refuted (code bug).  Generating `foo` leaves only the signature
and braces in `function_definitions`; the body's declaration lands in
`main_code` — `generate_ann_assign` (codegen.c:289–302) appends to
`codegen->main_code` directly instead of going through the redirected
`current_output` (only `generate_return` uses the cursor) — so the
main-code buffer is NOT left unchanged.  The cursor itself is saved and
restored as claimed. -/
theorem c6_function_body_lands_in_main_code :
    (generate_function_def 8 c6_cg0 c6_fn).function_definitions = "void foo() \x7b\n\x7d\n\n" ∧
    (generate_function_def 8 c6_cg0 c6_fn).main_code = "    int x = 1;\n" ∧
    (generate_function_def 8 c6_cg0 c6_fn).current_output = BufId.mainBuf := by
  refine ⟨rfl, rfl, rfl⟩

end Pyrinas
